import Mathlib

/-!
Verification development for the Telegram interview bot.

The Python sources (`scoring.py`, `handlers.py`, `questions.py`, `utils.py`,
`database.py`) are shallowly embedded below.  Strings are modelled as lists of
characters (`Str`), so that the Python string primitives used by the code
(`in`, `count`, `split`, `strip`, `lower`, `replace`) become executable Lean
functions; timestamps are modelled as rationals; the SQLite tables become a
single-user record (`Db`) holding the candidate row and the list of response
rows, and each handler becomes a pure state-transition function returning the
new database state together with the list of outbound messages.
-/

namespace InterviewBot

/-- Python strings, modelled as lists of characters. -/
abbrev Str := List Char

/-- Turn a Lean string literal into a `Str`. -/
def strL (s : String) : Str := s.data

/-- The apostrophe character (used inside many phrase-list literals). -/
def apos : Char := Char.ofNat 39

/-- Build a `Str` containing a single interior apostrophe, as in contractions. -/
def wApos (a b : String) : Str := a.data ++ apos :: b.data

/-- Python `sub in s`: substring containment. -/
def containsSub (s sub : Str) : Bool :=
  sub.isPrefixOf s ||
    match s with
    | [] => false
    | _ :: t => containsSub t sub

/-- Helper for `countSub`: scan the text left to right; `skip` counts the
characters of a just-matched occurrence that remain to be stepped over
(structural recursion, so that the kernel can evaluate it). -/
def countSubAux (sub : Str) : Str → Nat → Nat
  | [], _ => 0
  | _ :: t, Nat.succ k => countSubAux sub t k
  | c :: t, 0 =>
    if sub ≠ [] ∧ sub.isPrefixOf (c :: t) then
      1 + countSubAux sub t (sub.length - 1)
    else
      countSubAux sub t 0

/-- Python `s.count(sub)`: number of non-overlapping occurrences of `sub`
in `s`, scanning left to right (for nonempty `sub`). -/
def countSub (s sub : Str) : Nat := countSubAux sub s 0

/-- Split a list at every character satisfying `p`, keeping empty pieces
(the behaviour of Python `s.split(sep)` for a one-character separator). -/
def splitChar (p : Char → Bool) : Str → List Str
  | [] => [[]]
  | c :: t =>
    if p c then [] :: splitChar p t
    else
      match splitChar p t with
      | [] => [[c]]
      | w :: ws => (c :: w) :: ws

/-- Python `s.split()` with no argument: split on whitespace runs,
dropping empty pieces. -/
def pySplit (s : Str) : List Str :=
  (splitChar (fun c => c.isWhitespace) s).filter (fun w => w ≠ [])

/-- Python `s.strip()`: remove leading and trailing whitespace. -/
def stripWs (s : Str) : Str :=
  ((s.dropWhile Char.isWhitespace).reverse.dropWhile Char.isWhitespace).reverse

/-- Python `s.lower()` (ASCII case folding suffices for the phrase lists). -/
def lowerStr (s : Str) : Str := s.map Char.toLower

/-- Python `any(phrase in lower for phrase in phrases)`. -/
def anyHas (lower : Str) (phrases : List Str) : Bool :=
  phrases.any (fun p => containsSub lower p)

/-- Python `sum(1 for w in words if w in lower)`. -/
def countHits (lower : Str) (phrases : List Str) : Nat :=
  (phrases.filter (fun p => containsSub lower p)).length

/-! Embedding of `scoring.py`. -/

/-- Python `min` on integers, written out so that the kernel can evaluate it. -/
def pymin (a b : Int) : Int := if a ≤ b then a else b

/-- Python `max` on integers, written out so that the kernel can evaluate it. -/
def pymax (a b : Int) : Int := if a ≤ b then b else a

/-- Source: `scoring.py`, `_score_fan_control` — fan control and power,
0 to 2 points. -/
def score_fan_control (text lower : Str) : Int :=
  let confident_phrases := [strL "i want", wApos "i" "d love", strL "i can",
    strL "when you", strL "if you", strL "for me", wApos "i" "d like"]
  let needy_phrases := [strL "please", strL "i need", strL "i hope",
    strL "maybe", strL "i guess", strL "i think so"]
  let submissive_phrases := [strL "sorry", strL "apologies", strL "i apologize",
    strL "my fault", wApos "i" "m so sorry"]
  let has_confidence := anyHas lower confident_phrases
  let has_needy := anyHas lower needy_phrases
  let has_submissive := anyHas lower submissive_phrases
  let control_score : Int :=
    if has_confidence && !has_needy && !has_submissive then 2
    else if has_confidence || (!has_needy && !has_submissive) then 1
    else if !has_needy then 1
    else 0
  if countSub (lowerStr text) (strL "sorry") ≥ 3 then pymax 0 (control_score - 1)
  else control_score

/-- Source: `scoring.py`, `_score_emotional_investment` — emotional investment
building, 0 to 2 points. -/
def score_emotional_investment (lower : Str) : Int :=
  let chosen_phrases := [strL "for you", strL "special", strL "only you",
    strL "just for you", wApos "you" "re different", wApos "you" "re unique"]
  let curiosity_phrases := [strL "imagine", strL "what if", strL "think about",
    strL "picture", strL "later", strL "when", strL "someday"]
  let personal_phrases := [strL "i love", wApos "i" "m into",
    wApos "i" "m drawn to", strL "you make me", wApos "you" "re",
    strL "i feel", strL "i appreciate"]
  let connection_phrases := [strL "miss you", strL "think about you",
    strL "remember", strL "wish", strL "understand", strL "get you",
    strL "hear you"]
  let completion_phrases := [strL "i love you", wApos "i" "m yours",
    strL "forever", strL "always", strL "promise"]
  let has_chosen := anyHas lower chosen_phrases
  let has_curiosity := anyHas lower curiosity_phrases
  let has_personal := anyHas lower personal_phrases
  let has_connection := anyHas lower connection_phrases
  let over_giving := containsSub lower (strL "free") &&
    (containsSub lower (strL "pic") || containsSub lower (strL "photo") ||
     containsSub lower (strL "video"))
  let sales_pressure_words := [strL "buy", strL "pay", strL "tip now",
    strL "send money", strL "purchase", strL "order"]
  let is_overpushing := countHits lower sales_pressure_words ≥ 2
  let emotional_score : Int :=
    if (has_chosen || has_curiosity) && (has_personal || has_connection) &&
       !(anyHas lower completion_phrases) then 2
    else if (has_chosen || has_curiosity || has_personal || has_connection) &&
       !over_giving && !(decide is_overpushing) then 1
    else if (has_personal || has_connection) && !over_giving then 1
    else 0
  let emotional_score := if over_giving then 0 else emotional_score
  if is_overpushing then pymax 0 (emotional_score - 1) else emotional_score

/-- Source: `scoring.py`, `_score_monetization` — monetization trajectory,
0 to 2 points. -/
def score_monetization (lower : Str) : Int :=
  let desire_keywords := [strL "spoil", strL "treat", strL "unlock",
    strL "exclusive", strL "special", strL "premium", strL "vip"]
  let future_ppv_keywords := [strL "later", strL "next time", strL "when you",
    strL "if you want", strL "custom", strL "personal",
    wApos "whenever you" "re ready"]
  let subtle_sales := [strL "tip", strL "appreciate", strL "support",
    strL "help me", strL "for me", wApos "when you" "re feeling generous"]
  let pressure_phrases := [strL "buy now", strL "pay me", strL "send money",
    strL "give me", strL "i need money", strL "hurry", strL "limited time"]
  let sales_words := [strL "buy", strL "pay", strL "tip", strL "purchase",
    strL "order", strL "send"]
  let sales_word_count := countHits lower sales_words
  let is_overpushing := sales_word_count ≥ 4
  let begging := anyHas lower pressure_phrases
  let has_desire := anyHas lower desire_keywords
  let has_future_setup := anyHas lower future_ppv_keywords
  let has_subtle := anyHas lower subtle_sales
  let monetization_score : Int :=
    if (has_desire || has_subtle) && has_future_setup && !begging &&
       !(decide is_overpushing) then 2
    else if (has_desire || has_subtle || has_future_setup) && !begging &&
       !(decide is_overpushing) then 1
    else if (has_desire || has_subtle) && !begging then 1
    else 0
  let monetization_score := if begging then 0 else monetization_score
  if is_overpushing then 0 else monetization_score

/-- Source: `scoring.py`, `_score_rebuttal` — rebuttal skill, 0 to 2 points. -/
def score_rebuttal (lower : Str) (word_count : Nat) : Int :=
  let objection_words := [strL "free", strL "expensive", strL "why",
    strL "but", wApos "can" "t afford", strL "no money", strL "cheaper"]
  let has_objection_context := anyHas lower objection_words
  if has_objection_context then
    let reframing_phrases := [strL "i understand", strL "see it as",
      strL "think of it as", wApos "it" "s more like", wApos "you" "re worth"]
    let calm_phrases := [strL "no worries", strL "totally get it",
      wApos "that" "s okay", strL "i hear you"]
    let argument_phrases := [wApos "you" "re wrong", wApos "that" "s not true",
      strL "no you", strL "you should"]
    let has_reframe := anyHas lower reframing_phrases
    let has_calm := anyHas lower calm_phrases
    let has_argument := anyHas lower argument_phrases
    let rebuttal_score : Int :=
      if (has_reframe || has_calm) && !has_argument then 2
      else if has_reframe || has_calm then 1
      else 0
    if has_argument || containsSub lower (strL "defend") then 0
    else rebuttal_score
  else
    let momentum_words := [strL "yes", strL "yeah", strL "sure",
      strL "absolutely", strL "definitely", strL "of course"]
    if anyHas lower momentum_words || word_count > 5 then 1 else 0

/-- Source: `scoring.py`, `_score_pacing` — pacing and realism,
0 to 2 points. -/
def score_pacing (lower : Str) (word_count : Nat) : Int :=
  let contractions := [wApos "i" "m", wApos "i" "ve", wApos "don" "t",
    wApos "can" "t", wApos "won" "t", wApos "it" "s", wApos "that" "s",
    wApos "you" "re", wApos "we" "re"]
  let has_contractions := anyHas lower contractions
  let casual_words := [strL "yeah", strL "yep", strL "hmm", strL "mm",
    strL "haha", strL "lol", strL "omg", strL "tbh", strL "fr"]
  let has_casual := anyHas lower casual_words
  let corporate_phrases := [strL "i understand", strL "i appreciate",
    strL "thank you for", strL "i would be happy to"]
  let salesy_phrases := [strL "limited time", strL "act now",
    wApos "don" "t miss out", strL "buy today", strL "hurry up"]
  let sales_push_words := [strL "buy", strL "pay", strL "tip",
    strL "purchase", strL "order", strL "send", strL "money"]
  let sales_push_count := countHits lower sales_push_words
  let is_overpushing := sales_push_count ≥ 4
  let has_corporate := anyHas lower corporate_phrases
  let has_salesy := anyHas lower salesy_phrases
  let appropriate_length := 5 ≤ word_count ∧ word_count ≤ 60
  let pacing_score : Int :=
    if (has_contractions || has_casual) && (decide appropriate_length) &&
       !has_corporate && !has_salesy && !(decide is_overpushing) then 2
    else if (has_contractions || has_casual || (decide appropriate_length)) &&
       !has_salesy && !(decide is_overpushing) then 1
    else 0
  let pacing_score := if has_salesy then 0 else pacing_score
  if is_overpushing then 0 else pacing_score

/-- Source: `scoring.py`, `_detect_ai_indicators`, the repetitive
sentence-structure check: split into sentences on `.` `!` `?`, and flag when
more than three sentences have word-length variance below 3 (the Python
float arithmetic is modelled with exact rationals). -/
def repetitive_structure_flag (text : Str) : Bool :=
  let replaced := (text.map (fun c => if c == '!' then '.' else c)).map
    (fun c => if c == '?' then '.' else c)
  let sentences := ((splitChar (fun c => c == '.') replaced).map
    stripWs).filter (fun s => s ≠ [])
  if sentences.length > 3 then
    let lengths := sentences.map (fun s => (pySplit s).length)
    if lengths ≠ [] then
      let avg : ℚ := (lengths.sum : ℚ) / (lengths.length : ℚ)
      let variance : ℚ :=
        ((lengths.map (fun l => ((l : ℚ) - avg) ^ 2)).sum) /
          (lengths.length : ℚ)
      decide (variance < 3)
    else false
  else false

/-- Source: `scoring.py`, `_detect_ai_indicators` — AI-use indicators,
additive 0-to-10 scale. -/
def detect_ai_indicators (text lower : Str) (word_count : Nat)
    (response_time : ℚ) : Int :=
  let ai0 : Int := 0
  let ai1 := if countSub text (strL ",") > 6 then ai0 + 2 else ai0
  let ai2 := if countSub text (strL ".") > 7 then ai1 + 1 else ai1
  let generic_phrases := [strL "i understand", strL "i appreciate",
    strL "i would be happy", strL "thank you for"]
  let generic_count := countHits lower generic_phrases
  let ai3 := if generic_count ≥ 2 then ai2 + 2 else ai2
  let ai4 := if repetitive_structure_flag text then ai3 + 2 else ai3
  let contractions := [wApos "i" "m", wApos "i" "ve", wApos "don" "t",
    wApos "can" "t", wApos "won" "t", wApos "it" "s", wApos "that" "s",
    wApos "you" "re", wApos "we" "re"]
  let has_contractions := anyHas lower contractions
  let ai5 := if word_count > 15 && !has_contractions then ai4 + 1 else ai4
  let corporate_words := [strL "certainly", strL "absolutely",
    strL "furthermore", strL "moreover", strL "additionally"]
  let corporate_count := countHits lower corporate_words
  let ai6 := if corporate_count ≥ 2 then ai5 + 2 else ai5
  let ai7 := if response_time < 1 then ai6 + 1 else ai6
  if word_count > 100 then ai7 + 1 else ai7

/-- Source: `scoring.py`, `analyze_response` — score one answer on the 0-10
rubric together with the 0-10 AI-likelihood score. -/
def analyze_response (text : Str) (response_time : ℚ) : Int × Int :=
  let lower := lowerStr text
  let words := pySplit text
  let word_count := words.length
  let score : Int :=
    score_fan_control text lower + score_emotional_investment lower +
    score_monetization lower + score_rebuttal lower word_count +
    score_pacing lower word_count
  let ai_score := detect_ai_indicators text lower word_count response_time
  (pymin score 10, pymin ai_score 10)

/-- The tri-state hire decision. -/
inductive Decision where
  | APPROVED
  | BORDERLINE
  | NOT_ELIGIBLE
deriving DecidableEq, Repr

/-- Source: `scoring.py`, `determine_decision` — final decision from the
cumulative score and cumulative AI score. -/
def determine_decision (score ai_score : Int) : Decision :=
  if score ≥ 17 ∧ ai_score ≤ 8 then .APPROVED
  else if score ≥ 13 ∧ ai_score ≤ 10 then .BORDERLINE
  else .NOT_ELIGIBLE

/-! Embedding of `utils.py` (feedback rendering). -/

/-- The three fixed candidate-facing feedback templates rendered by
`utils.generate_feedback`; the template text itself carries no state, so it
is modelled by which template was chosen. -/
inductive Feedback where
  | approvedTemplate
  | borderlineTemplate
  | notEligibleTemplate
deriving DecidableEq, Repr

set_option linter.unusedVariables false in
/-- Source: `utils.py`, `generate_feedback` — selects one fixed template by
decision (the numeric arguments are never used in the rendered text). -/
def generate_feedback (score ai_score : Int) (decision : Decision) : Feedback :=
  match decision with
  | .APPROVED => .approvedTemplate
  | .BORDERLINE => .borderlineTemplate
  | .NOT_ELIGIBLE => .notEligibleTemplate

/-! Embedding of the persistent state (`database.py` schema) for a single
candidate (`user_id` fixed). -/

/-- Source: `database.py`, table `candidates` — one row per user. -/
structure Candidate where
  username : Option Str
  name : Option Str
  question_index : Int
  score : Int
  ai_score : Int
  last_time : ℚ
  completed : Int
  decision : Option Decision
  feedback : Option Feedback
  has_completed_interview : Int
  selected_questions : Option (List Str)
deriving DecidableEq, Repr

/-- Source: `database.py`, table `responses` — one row per scored answer
(the autoincrement `id` column carries no program-visible information and
is omitted). -/
structure Response where
  question_number : Int
  question_text : Str
  response_text : Str
  response_time : ℚ
  timestamp : ℚ
deriving DecidableEq, Repr

/-- The database restricted to one user: the optional candidate row and the
list of that user's response rows (in insertion order). -/
structure Db where
  candidate : Option Candidate
  responses : List Response
deriving DecidableEq, Repr

/-- The empty database: the user has no candidate row yet. -/
def db0 : Db := { candidate := none, responses := [] }

/-- Outbound messages, one constructor per distinct `reply_text` template in
`handlers.py` (parameters carry the data interpolated into the template). -/
inductive OutMsg where
  | pleaseStartFirst
  | completedUseStart
  | alreadyAcceptedNotice
  | storedFeedback (f : Feedback)
  | alreadyCompletedFallback
  | adminRestartAfterCompletion
  | interviewInProgress (idx : Int) (total : Nat)
  | adminRestartInProgress
  | completedContactAdmin
  | askName
  | askNameAdmin
  | nameTooShort
  | nameTooLong
  | nameNotSimple
  | errorTryStartAgain
  | welcome (name : Str)
  | question (q : Str)
  | errorStartOver
  | errorContactSupport
  | feedbackMsg (f : Feedback)
  | feedbackAdmin (f : Feedback)
  | genericError
deriving DecidableEq, Repr

/-- Source: `questions.py`, `QUESTIONS_PER_INTERVIEW`. -/
def QUESTIONS_PER_INTERVIEW : Nat := 5

/-- Source: `handlers.py` — `max_possible_score = QUESTIONS_PER_INTERVIEW * 10`. -/
def max_possible_score : Int := (QUESTIONS_PER_INTERVIEW : Int) * 10

/-- A conditional `UPDATE candidates ... WHERE user_id = ? [AND pred]`
returning the updated database and the affected-row count. -/
def updateWhere (pred : Candidate → Bool) (f : Candidate → Candidate)
    (db : Db) : Db × Nat :=
  match db.candidate with
  | none => (db, 0)
  | some r => if pred r then ({ db with candidate := some (f r) }, 1) else (db, 0)

/-- Source: `handlers.py` — the admin unlock write
`UPDATE candidates SET has_completed_interview = 0, completed = 0 WHERE user_id = ?`. -/
def clearLock (db : Db) : Db :=
  match db.candidate with
  | none => db
  | some r =>
    { db with candidate := some { r with has_completed_interview := 0, completed := 0 } }

/-- Source: `handlers.py`, `get_user_questions`, combined with the Python
truthiness test `if not user_questions` applied at every use site: a missing
row, a NULL column and an empty list all behave as no questions. -/
def get_user_questions (db : Db) : Option (List Str) :=
  match db.candidate with
  | some r =>
    match r.selected_questions with
    | some qs => if qs = [] then none else some qs
    | none => none
  | none => none

/-- Python list indexing `qs[i]` (use sites guarantee `0 ≤ i < len`). -/
def pyGet (qs : List Str) (i : Int) : Str := (qs.get? i.toNat).getD []

/-- Source: `handlers.py`, `_complete_interview` — compute the decision,
render and cache the feedback, and set the completion lock. -/
def complete_interview (admin : Bool) (now : ℚ) (db : Db) : Db × List OutMsg :=
  match db.candidate with
  | none => (db, [.errorContactSupport])
  | some final_check =>
    let has_completed := final_check.has_completed_interview
    let final_score := final_check.score
    let final_ai_score := final_check.ai_score
    if has_completed = 1 ∧ admin = false then (db, [.completedUseStart])
    else
      let capped :=
        if final_score > max_possible_score then
          ((updateWhere (fun _ => true) (fun r => { r with score := max_possible_score }) db).1,
            max_possible_score)
        else (db, final_score)
      let db1 := capped.1
      let final_score := capped.2
      let decision := determine_decision final_score final_ai_score
      let feedback := generate_feedback final_score final_ai_score decision
      let db2 := (updateWhere (fun r => admin || (r.has_completed_interview == 0))
        (fun r => { r with
          completed := 1, has_completed_interview := 1,
          decision := some decision, feedback := some feedback,
          last_time := now }) db1).1
      let db3 :=
        if admin = false then
          match db2.candidate with
          | some v =>
            if v.has_completed_interview ≠ 1 ∨ v.completed ≠ 1 then
              { db2 with
                candidate := some { v with completed := 1, has_completed_interview := 1 } }
            else db2
          | none => db2
        else db2
      (db3, [if admin then .feedbackAdmin feedback else .feedbackMsg feedback])

/-- Source: `handlers.py`, `_handle_answer` — score an answer, insert the
response row, accumulate the totals, advance the cursor, and send the next
question or run completion.  `index` and `last_time` are the values read by
`handle_message` before dispatch. -/
def handle_answer (admin : Bool) (text : Str) (index : Int) (now last_time : ℚ)
    (db : Db) : Db × List OutMsg :=
  match get_user_questions db with
  | none => (db, [.errorStartOver])
  | some user_questions =>
    let previous_question_num := index - 1
    let existing_response :=
      db.responses.any (fun r => r.question_number == previous_question_num)
    if existing_response then
      if index < (user_questions.length : Int) then
        let db1 := (updateWhere (fun _ => true)
          (fun r => { r with
            question_index := r.question_index + 1,
            last_time := now }) db).1
        (db1, [.question (pyGet user_questions index)])
      else (db, [])
    else
      match db.candidate with
      | none => (db, [.errorStartOver])
      | some current_state =>
        let current_score := current_state.score
        let has_completed_check := current_state.has_completed_interview
        if has_completed_check = 1 ∧ admin = false then (db, [.completedUseStart])
        else
          let db1 := if has_completed_check = 1 ∧ admin = true then clearLock db else db
          let response_time := now - last_time
          let previous_question_text :=
            if 0 ≤ previous_question_num ∧
               previous_question_num < (user_questions.length : Int)
            then pyGet user_questions previous_question_num
            else strL "Initial message"
          let sc := analyze_response text response_time
          let db2 := { db1 with
            responses := db1.responses ++
              [{ question_number := previous_question_num,
                 question_text := previous_question_text,
                 response_text := text,
                 response_time := response_time,
                 timestamp := now }] }
          let db3 :=
            if current_score > max_possible_score then
              (updateWhere (fun _ => true)
                (fun r => { r with score := 0, ai_score := 0 }) db2).1
            else db2
          let upd := updateWhere (fun r => admin || (r.has_completed_interview == 0))
            (fun r => { r with
              score := r.score + sc.1, ai_score := r.ai_score + sc.2,
              question_index := r.question_index + 1, last_time := now }) db3
          if upd.2 = 0 then (upd.1, [.errorContactSupport])
          else if index < (user_questions.length : Int) then
            (upd.1, [.question (pyGet user_questions index)])
          else
            complete_interview admin now upd.1

/-- Source: `handlers.py`, `_handle_name_input` — validate the submitted
name, store it together with the freshly sampled questions, send the welcome
text and the first question, and move the cursor to 1.  `sample` is the list
returned by `get_random_questions()` (always 5 pool questions). -/
def handle_name_input (admin : Bool) (text : Str) (now : ℚ) (sample : List Str)
    (db : Db) : Db × List OutMsg :=
  let applicant_name := stripWs text
  if applicant_name.length < 2 then (db, [.nameTooShort])
  else if applicant_name.length > 20 then (db, [.nameTooLong])
  else if containsSub applicant_name (strL ".") ∨
          containsSub applicant_name [Char.ofNat 10] then (db, [.nameNotSimple])
  else
    let locked : Bool :=
      match db.candidate with
      | some c => c.has_completed_interview == 1
      | none => false
    if locked = true ∧ admin = false then (db, [.completedUseStart])
    else
      let db1 := if locked = true ∧ admin = true then clearLock db else db
      let upd := updateWhere (fun r => admin || (r.has_completed_interview == 0))
        (fun r => { r with
          name := some applicant_name, question_index := 0,
          last_time := now, score := 0, ai_score := 0, completed := 0,
          decision := none, feedback := none,
          has_completed_interview := 0,
          selected_questions := some sample }) db1
      if upd.2 = 0 then (upd.1, [.errorTryStartAgain])
      else
        let db2 := (updateWhere (fun r => admin || (r.has_completed_interview == 0))
          (fun r => { r with question_index := 1, last_time := now }) upd.1).1
        (db2, [.welcome applicant_name, .question (pyGet sample 0)])

/-- Source: `handlers.py`, `_handle_welcome` — transitional state 0: assign
questions if missing, send the first question, move the cursor to 1. -/
def handle_welcome (admin : Bool) (now : ℚ) (sample : List Str) (db : Db) :
    Db × List OutMsg :=
  let uq := get_user_questions db
  let assigned :=
    match uq with
    | some qs => (db, qs)
    | none =>
      ((updateWhere (fun r => admin || (r.has_completed_interview == 0))
        (fun r => { r with selected_questions := some sample }) db).1, sample)
  let db1 := assigned.1
  let user_questions := assigned.2
  let db2 := (updateWhere (fun r => admin || (r.has_completed_interview == 0))
    (fun r => { r with question_index := 1, last_time := now }) db1).1
  (db2, [.question (pyGet user_questions 0)])

/-- Source: `handlers.py`, `handle_message` — the message router: completion
lock gate (with the admin bypass that clears the lock), then dispatch on the
state cursor. -/
def handle_message (admin : Bool) (text : Str) (now : ℚ) (sample : List Str)
    (db : Db) : Db × List OutMsg :=
  match db.candidate with
  | none => (db, [.pleaseStartFirst])
  | some row =>
    let index := row.question_index
    let last_time := row.last_time
    let has_completed := row.has_completed_interview
    if has_completed = 1 ∧ admin = false then (db, [.completedUseStart])
    else
      let db1 := if has_completed = 1 ∧ admin = true then clearLock db else db
      if index = -1 then handle_name_input admin text now sample db1
      else if index = 0 then handle_welcome admin now sample db1
      else if index ≥ 1 then handle_answer admin text index now last_time db1
      else (db1, [.genericError])

/-- Source: `handlers.py`, `start_handler` — the `/start` command: blocked
after completion for non-admins (replying with the decision-specific
message), blocked mid-interview for non-admins, otherwise a full reset of
the candidate row and deletion of the response rows. -/
def start_handler (admin : Bool) (username : Option Str) (now : ℚ) (db : Db) :
    Db × List OutMsg :=
  match db.candidate with
  | none =>
    ({ candidate := some
        { username := username, name := none, question_index := -1, score := 0,
          ai_score := 0, last_time := now, completed := 0, decision := none,
          feedback := none, has_completed_interview := 0,
          selected_questions := none },
       responses := [] },
     [if admin then .askNameAdmin else .askName])
  | some r0 =>
    if r0.has_completed_interview = 1 ∧ admin = false then
      if r0.decision = some Decision.APPROVED then (db, [.alreadyAcceptedNotice])
      else
        match r0.feedback with
        | some f => (db, [.storedFeedback f])
        | none => (db, [.alreadyCompletedFallback])
    else
      let out0 : List OutMsg :=
        if r0.has_completed_interview = 1 ∧ admin = true then
          [.adminRestartAfterCompletion]
        else []
      let inProgressBlocked : Bool :=
        (r0.has_completed_interview == 0) && !admin &&
          (match get_user_questions db with
           | some qs =>
             decide (0 ≤ r0.question_index) &&
               decide (r0.question_index ≤ (qs.length : Int))
           | none => false)
      if inProgressBlocked then
        (db, [.interviewInProgress r0.question_index
          ((get_user_questions db).getD []).length])
      else
        let out1 := out0 ++
          (if r0.has_completed_interview = 0 ∧ admin = true then
            [.adminRestartInProgress]
          else [])
        if r0.has_completed_interview = 1 ∧ admin = false then
          (db, out1 ++ [.completedContactAdmin])
        else
          let db1 : Db := { candidate := db.candidate, responses := [] }
          let upd := updateWhere (fun _ => true)
            (fun r => { r with
              username := username, question_index := -1,
              last_time := now, completed := 0, score := 0,
              ai_score := 0, decision := none, name := none,
              feedback := none, has_completed_interview := 0 }) db1
          let db2 :=
            if upd.2 = 0 then
              { upd.1 with
                candidate := some
                  { username := username, name := none, question_index := -1,
                    score := 0, ai_score := 0, last_time := now, completed := 0,
                    decision := none, feedback := none,
                    has_completed_interview := 0, selected_questions := none } }
            else upd.1
          (db2, out1 ++ [if admin then .askNameAdmin else .askName])

/-- One inbound event for this user: the `/start` command or a plain text
message.  A text message carries the list that `get_random_questions()`
would return if the handler needs to sample questions. -/
inductive Event where
  | startCmd (username : Option Str) (now : ℚ)
  | textMsg (text : Str) (now : ℚ) (sample : List Str)

/-- Process one inbound event (the dispatch in `bot.py`: `/start` goes to
`start_handler`, other text to `handle_message`). -/
def step (admin : Bool) : Event → Db → Db × List OutMsg
  | .startCmd u now, db => start_handler admin u now db
  | .textMsg t now sample, db => handle_message admin t now sample db

/-- Database states reachable for one user by any sequence of inbound
events, starting from no candidate row.  The question sampler
(`questions.get_random_questions`) always returns exactly
`QUESTIONS_PER_INTERVIEW = 5` questions (the pool has 49), so every sample
carried by a text message has length 5. -/
inductive Reachable (admin : Bool) : Db → Prop where
  | init : Reachable admin db0
  | startCmd {db} (u : Option Str) (now : ℚ) : Reachable admin db →
      Reachable admin (start_handler admin u now db).1
  | textMsg {db} (t : Str) (now : ℚ) (sample : List Str) :
      sample.length = QUESTIONS_PER_INTERVIEW → Reachable admin db →
      Reachable admin (handle_message admin t now sample db).1

/-! Bounds of the five rubric sub-scores and of the AI indicator score. -/

theorem score_fan_control_bounds (text lower : Str) :
    0 ≤ score_fan_control text lower ∧ score_fan_control text lower ≤ 2 := by
  unfold score_fan_control pymax
  dsimp only
  repeat' split
  all_goals omega

theorem score_emotional_investment_bounds (lower : Str) :
    0 ≤ score_emotional_investment lower ∧
      score_emotional_investment lower ≤ 2 := by
  unfold score_emotional_investment pymax
  dsimp only
  repeat' split
  all_goals omega

theorem score_monetization_bounds (lower : Str) :
    0 ≤ score_monetization lower ∧ score_monetization lower ≤ 2 := by
  unfold score_monetization
  dsimp only
  repeat' split
  all_goals omega

theorem score_rebuttal_bounds (lower : Str) (word_count : Nat) :
    0 ≤ score_rebuttal lower word_count ∧
      score_rebuttal lower word_count ≤ 2 := by
  unfold score_rebuttal
  dsimp only
  repeat' split
  all_goals omega

theorem score_pacing_bounds (lower : Str) (word_count : Nat) :
    0 ≤ score_pacing lower word_count ∧ score_pacing lower word_count ≤ 2 := by
  unfold score_pacing
  dsimp only
  repeat' split
  all_goals omega

theorem detect_ai_bounds (text lower : Str) (wc : Nat) (rt : ℚ) :
    0 ≤ detect_ai_indicators text lower wc rt := by
  unfold detect_ai_indicators
  dsimp only
  all_goals omega

theorem analyze_response_bounds (text : Str) (rt : ℚ) :
    0 ≤ (analyze_response text rt).1 ∧ (analyze_response text rt).1 ≤ 10 ∧
    0 ≤ (analyze_response text rt).2 ∧ (analyze_response text rt).2 ≤ 10 := by
  have h1 := score_fan_control_bounds text (lowerStr text)
  have h2 := score_emotional_investment_bounds (lowerStr text)
  have h3 := score_monetization_bounds (lowerStr text)
  have h4 := score_rebuttal_bounds (lowerStr text) (pySplit text).length
  have h5 := score_pacing_bounds (lowerStr text) (pySplit text).length
  have h6 := detect_ai_bounds text (lowerStr text) (pySplit text).length rt
  unfold analyze_response pymin
  dsimp only
  all_goals omega



/-- Both completion flags of a candidate row are stored as 0 or 1. -/
def flagBinary (r : Candidate) : Prop :=
  r.has_completed_interview = 0 ∨ r.has_completed_interview = 1

/-- The per-row part of the reachability invariant. -/
def goodRow (admin : Bool) (r : Candidate) : Prop :=
  0 ≤ r.score ∧ r.score ≤ 50 ∧
  (r.question_index ≤ 0 → r.score = 0) ∧
  (1 ≤ r.question_index → r.question_index ≤ 5 →
    r.score ≤ 10 * (r.question_index - 1)) ∧
  (∀ qs, r.selected_questions = some qs → qs.length = 5) ∧
  (admin = false → r.has_completed_interview = 0 → r.question_index ≤ 5) ∧
  flagBinary r

/-- The reachability invariant: every candidate row is well-formed, response
rows have pairwise distinct question numbers, and for non-admin users every
stored question number lies in [0, 4]. -/
def DbInv (admin : Bool) (db : Db) : Prop :=
  (∀ r, db.candidate = some r → goodRow admin r) ∧
  (db.responses.map (fun x => x.question_number)).Nodup ∧
  (admin = false → ∀ x ∈ db.responses,
    0 ≤ x.question_number ∧ x.question_number ≤ 4)

theorem mps50 : max_possible_score = 50 := rfl

theorem uw_resp (p : Candidate → Bool) (f : Candidate → Candidate) (db : Db) :
    ((updateWhere p f db).1).responses = db.responses := by
  obtain ⟨c, rs⟩ := db
  cases c with
  | none => rfl
  | some r =>
    unfold updateWhere
    dsimp only
    split <;> rfl

theorem uw_cand (p : Candidate → Bool) (f : Candidate → Candidate) (db : Db)
    (r1 : Candidate) (h : ((updateWhere p f db).1).candidate = some r1) :
    ∃ r0, db.candidate = some r0 ∧
      ((p r0 = true ∧ r1 = f r0) ∨ (p r0 = false ∧ r1 = r0)) := by
  obtain ⟨c, rs⟩ := db
  cases c with
  | none => exact absurd h (by simp [updateWhere])
  | some r0 =>
    refine ⟨r0, rfl, ?_⟩
    unfold updateWhere at h
    dsimp only at h
    by_cases hp : p r0 = true
    · rw [if_pos hp] at h
      simp only [Option.some.injEq] at h
      exact .inl ⟨hp, h.symm⟩
    · rw [if_neg hp] at h
      simp only [Option.some.injEq] at h
      exact .inr ⟨by simpa using hp, h.symm⟩

theorem uw_eq_pos (p : Candidate → Bool) (f : Candidate → Candidate)
    (r0 : Candidate) (rs : List Response) (hp : p r0 = true) :
    updateWhere p f ⟨some r0, rs⟩ = (⟨some (f r0), rs⟩, 1) := by
  unfold updateWhere
  simp [hp]

theorem uw_eq_neg (p : Candidate → Bool) (f : Candidate → Candidate)
    (r0 : Candidate) (rs : List Response) (hp : p r0 = false) :
    updateWhere p f ⟨some r0, rs⟩ = (⟨some r0, rs⟩, 0) := by
  unfold updateWhere
  simp [hp]

theorem clearLock_resp (db : Db) : (clearLock db).responses = db.responses := by
  obtain ⟨c, rs⟩ := db
  cases c <;> rfl

theorem clearLock_cand (db : Db) (r1 : Candidate)
    (h : (clearLock db).candidate = some r1) :
    ∃ r0, db.candidate = some r0 ∧
      r1 = { r0 with has_completed_interview := 0, completed := 0 } := by
  obtain ⟨c, rs⟩ := db
  cases c with
  | none => exact absurd h (by simp [clearLock])
  | some r0 =>
    refine ⟨r0, rfl, ?_⟩
    simp only [clearLock, Option.some.injEq] at h
    exact h.symm

theorem inv_clearLock (admin : Bool) (db : Db) (h : DbInv admin db)
    (hadm : admin = true) : DbInv admin (clearLock db) := by
  obtain ⟨hc, hn, hr⟩ := h
  refine ⟨?_, by rw [clearLock_resp]; exact hn,
    by rw [clearLock_resp]; exact hr⟩
  intro r1 h1
  obtain ⟨r0, hc0, rfl⟩ := clearLock_cand _ _ h1
  obtain ⟨g1, g2, g3, g4, g5, g6, g7⟩ := hc r0 hc0
  exact ⟨g1, g2, g3, g4, g5, by simp [hadm], by simp [flagBinary]⟩

theorem nodup_snoc (rs : List Response) (x : Response)
    (hn : (rs.map (fun r => r.question_number)).Nodup)
    (hx : ∀ r ∈ rs, r.question_number ≠ x.question_number) :
    (((rs ++ [x]).map (fun r => r.question_number))).Nodup := by
  rw [List.map_append, List.nodup_append]
  refine ⟨hn, by simp, ?_⟩
  intro a ha hb
  simp only [List.map_cons, List.map_nil, List.mem_singleton] at hb
  subst hb
  simp only [List.mem_map] at ha
  obtain ⟨r, hr, hrq⟩ := ha
  exact hx r hr hrq

/-- The common second write of the name-input and welcome handlers: move the
cursor to 1; sound whenever every present row has score 0, well-formed
selected questions, and binary flags. -/
theorem inv_advance1 (admin : Bool) (now : ℚ) (db1 : Db)
    (hn : (db1.responses.map (fun x => x.question_number)).Nodup)
    (hr : admin = false → ∀ x ∈ db1.responses,
      0 ≤ x.question_number ∧ x.question_number ≤ 4)
    (hcand : ∀ r1, db1.candidate = some r1 → r1.score = 0 ∧
      (∀ qs, r1.selected_questions = some qs → qs.length = 5) ∧ flagBinary r1) :
    DbInv admin ((updateWhere (fun r => admin || (r.has_completed_interview == 0))
      (fun r => { r with question_index := 1, last_time := now }) db1).1) := by
  refine ⟨?_, by rw [uw_resp]; exact hn, by rw [uw_resp]; exact hr⟩
  intro r1 h1
  obtain ⟨r0, hc0, hcase⟩ := uw_cand _ _ _ _ h1
  obtain ⟨e1, e2, e3⟩ := hcand r0 hc0
  rcases hcase with ⟨hp, rfl⟩ | ⟨hp, rfl⟩
  · refine ⟨by norm_num [e1], by norm_num [e1], by norm_num [e1],
      by norm_num [e1], ?_, by norm_num, ?_⟩
    · intro qs hqs
      exact e2 qs (by simpa using hqs)
    · simpa [flagBinary] using e3
  · refine ⟨by norm_num [e1], by norm_num [e1], by norm_num [e1], ?_, e2, ?_, e3⟩
    · intro h1 h2
      rw [e1]
      omega
    · intro hadm h0
      rw [hadm] at hp
      simp [h0] at hp

theorem inv_start (admin : Bool) (u : Option Str) (now : ℚ) (db : Db)
    (h : DbInv admin db) : DbInv admin (start_handler admin u now db).1 := by
  obtain ⟨c, rs⟩ := db
  obtain ⟨hc, hn, hr⟩ := h
  cases c with
  | none =>
    simp only [start_handler]
    refine ⟨?_, by simp, by simp⟩
    rintro r hr2
    simp only [Option.some.injEq] at hr2
    subst hr2
    simp [goodRow, flagBinary]
  | some r0 =>
    obtain ⟨g1, g2, g3, g4, g5, g6, g7⟩ := hc r0 rfl
    simp only [start_handler, updateWhere]
    repeat' split
    all_goals try exact ⟨hc, hn, hr⟩
    all_goals try (exfalso; simp_all; done)
    all_goals refine ⟨?_, by simp, by simp⟩
    all_goals rintro r hr2
    all_goals simp only [Option.some.injEq] at hr2
    all_goals subst hr2
    all_goals simp only [goodRow, flagBinary]
    all_goals refine ⟨?_, ?_, ?_, ?_, ?_, ?_, ?_⟩
    all_goals try simp
    all_goals try (intro qs hqs; exact g5 qs hqs)

theorem inv_welcome (admin : Bool) (now : ℚ) (sample : List Str) (db : Db)
    (hs : sample.length = 5) (h : DbInv admin db)
    (hq : ∀ r, db.candidate = some r → r.question_index = 0) :
    DbInv admin (handle_welcome admin now sample db).1 := by
  obtain ⟨c, rs⟩ := db
  obtain ⟨hc, hn, hr⟩ := h
  cases c with
  | none =>
    unfold handle_welcome get_user_questions
    dsimp only
    refine inv_advance1 admin now _ ?_ ?_ ?_
    · rw [uw_resp]
      exact hn
    · rw [uw_resp]
      exact hr
    · intro r1 h1
      obtain ⟨r0, hc0, _⟩ := uw_cand _ _ _ _ h1
      exact absurd hc0 (by simp)
  | some r0 =>
    obtain ⟨g1, g2, g3, g4, g5, g6, g7⟩ := hc r0 rfl
    have hq0 : r0.question_index = 0 := hq r0 rfl
    have hs0 : r0.score = 0 := g3 (by omega)
    have hassign : DbInv admin ((updateWhere
        (fun r => admin || (r.has_completed_interview == 0))
        (fun r => { r with question_index := 1, last_time := now })
        ((updateWhere (fun r => admin || (r.has_completed_interview == 0))
          (fun r => { r with selected_questions := some sample })
          ⟨some r0, rs⟩).1)).1) := by
      refine inv_advance1 admin now _ ?_ ?_ ?_
      · rw [uw_resp]
        exact hn
      · rw [uw_resp]
        exact hr
      · intro r1 h1
        obtain ⟨rx, hcx, hcase⟩ := uw_cand _ _ _ _ h1
        simp only [Option.some.injEq] at hcx
        subst hcx
        rcases hcase with ⟨hp, rfl⟩ | ⟨hp, rfl⟩
        · refine ⟨by simpa using hs0, ?_, by simpa [flagBinary] using g7⟩
          intro qs hqs
          simp only [Option.some.injEq] at hqs
          subst hqs
          exact hs
        · exact ⟨hs0, g5, g7⟩
    cases hsel : r0.selected_questions with
    | none =>
      unfold handle_welcome get_user_questions
      dsimp only
      rw [hsel]
      exact hassign
    | some qs0 =>
      by_cases hqe : qs0 = []
      · subst hqe
        unfold handle_welcome get_user_questions
        dsimp only
        rw [hsel]
        simp only [if_pos rfl]
        exact hassign
      · unfold handle_welcome get_user_questions
        dsimp only
        rw [hsel]
        simp only [if_neg hqe]
        refine inv_advance1 admin now _ hn hr ?_
        intro r1 h1
        simp only [Option.some.injEq] at h1
        subst h1
        exact ⟨hs0, g5, g7⟩

theorem inv_name_input (admin : Bool) (text : Str) (now : ℚ)
    (sample : List Str) (db : Db) (hs : sample.length = 5) (h : DbInv admin db) :
    DbInv admin (handle_name_input admin text now sample db).1 := by
  obtain ⟨c, rs⟩ := db
  obtain ⟨hc, hn, hr⟩ := h
  have hreset : ∀ rx : Candidate,
      DbInv admin ((updateWhere (fun r => admin || (r.has_completed_interview == 0))
        (fun r => { r with question_index := 1, last_time := now })
        ⟨some { rx with
          name := some (stripWs text), question_index := 0,
          last_time := now, score := 0, ai_score := 0, completed := 0,
          decision := none, feedback := none,
          has_completed_interview := 0,
          selected_questions := some sample }, rs⟩).1) := by
    intro rx
    refine inv_advance1 admin now _ hn hr ?_
    intro r1 h1
    simp only [Option.some.injEq] at h1
    subst h1
    refine ⟨rfl, ?_, Or.inl rfl⟩
    intro qs hqs
    simp only [Option.some.injEq] at hqs
    subst hqs
    exact hs
  cases c with
  | none =>
    have hnone : (handle_name_input admin text now sample ⟨none, rs⟩).1 =
        (⟨none, rs⟩ : Db) := by
      unfold handle_name_input
      dsimp only
      split
      · rfl
      split
      · rfl
      split
      · rfl
      rw [show clearLock (⟨none, rs⟩ : Db) = (⟨none, rs⟩ : Db) from rfl]
      rw [ite_self]
      rw [if_neg (by simp)]
      rw [show (updateWhere (fun r => admin || (r.has_completed_interview == 0))
        (fun r => { r with
          name := some (stripWs text), question_index := 0,
          last_time := now, score := 0, ai_score := 0, completed := 0,
          decision := none, feedback := none, has_completed_interview := 0,
          selected_questions := some sample })
        (⟨none, rs⟩ : Db)) = ((⟨none, rs⟩ : Db), 0) from rfl]
      rw [if_pos (show ((⟨none, rs⟩ : Db), 0).2 = 0 from rfl)]
    rw [hnone]
    exact ⟨hc, hn, hr⟩
  | some r0 =>
    obtain ⟨g1, g2, g3, g4, g5, g6, g7⟩ := hc r0 rfl
    unfold handle_name_input
    dsimp only
    split
    · exact ⟨hc, hn, hr⟩
    split
    · exact ⟨hc, hn, hr⟩
    split
    · exact ⟨hc, hn, hr⟩
    by_cases hg : ((r0.has_completed_interview == 1) = true ∧ admin = false)
    · rw [if_pos hg]
      exact ⟨hc, hn, hr⟩
    rw [if_neg hg]
    by_cases hcl : ((r0.has_completed_interview == 1) = true ∧ admin = true)
    · rw [if_pos hcl]
      rw [show clearLock ⟨some r0, rs⟩ =
        (⟨some { r0 with has_completed_interview := 0, completed := 0 },
          rs⟩ : Db) from rfl]
      rw [uw_eq_pos _ _ _ _ (by simp)]
      rw [if_neg (by simp)]
      exact hreset _
    · rw [if_neg hcl]
      by_cases hp : (admin || (r0.has_completed_interview == 0)) = true
      · rw [uw_eq_pos _ _ _ _ hp]
        rw [if_neg (by simp)]
        exact hreset _
      · rw [uw_eq_neg _ _ _ _ (by simpa using hp)]
        rw [if_pos rfl]
        exact ⟨hc, hn, hr⟩

/-- The completion tail: the guarded lock write followed by the non-admin
lock verification.  Sound for any row with bounded score, cursor at least 6,
well-formed questions, and binary flags. -/
theorem inv_lock_tail (admin : Bool) (now : ℚ) (rs : List Response)
    (v1 : Candidate) (d : Decision) (fb : Feedback)
    (hv1 : 0 ≤ v1.score) (hv2 : v1.score ≤ 50) (hv3 : 6 ≤ v1.question_index)
    (hv4 : ∀ qs, v1.selected_questions = some qs → qs.length = 5)
    (hv5 : flagBinary v1)
    (hn : (rs.map (fun x => x.question_number)).Nodup)
    (hr : admin = false → ∀ x ∈ rs,
      0 ≤ x.question_number ∧ x.question_number ≤ 4) :
    DbInv admin (
      let db2 := (updateWhere (fun r => admin || (r.has_completed_interview == 0))
        (fun r => { r with
          completed := 1, has_completed_interview := 1,
          decision := some d, feedback := some fb,
          last_time := now }) ⟨some v1, rs⟩).1
      let db3 :=
        if admin = false then
          match db2.candidate with
          | some v =>
            if v.has_completed_interview ≠ 1 ∨ v.completed ≠ 1 then
              { db2 with
                candidate := some { v with completed := 1, has_completed_interview := 1 } }
            else db2
          | none => db2
        else db2
      db3) := by
  have hgood : ∀ (w : Candidate), w.score = v1.score →
      w.question_index = v1.question_index →
      w.selected_questions = v1.selected_questions →
      w.has_completed_interview = 1 → goodRow admin w := by
    intro w e1 e2 e3 e5
    refine ⟨by rw [e1]; exact hv1, by rw [e1]; exact hv2,
      by rw [e1, e2]; omega, by rw [e1, e2]; omega,
      by rw [e3]; exact hv4, by rw [e5]; intro _ h0; omega, Or.inr e5⟩
  dsimp only
  by_cases hp : (admin || (v1.has_completed_interview == 0)) = true
  · rw [uw_eq_pos _ _ _ _ hp]
    dsimp only
    by_cases ha : admin = false
    · rw [if_pos ha]
      rw [if_neg (by simp)]
      refine ⟨?_, hn, hr⟩
      rintro r hr2
      simp only [Option.some.injEq] at hr2
      subst hr2
      exact hgood _ rfl rfl rfl rfl
    · rw [if_neg ha]
      refine ⟨?_, hn, hr⟩
      rintro r hr2
      simp only [Option.some.injEq] at hr2
      subst hr2
      exact hgood _ rfl rfl rfl rfl
  · have hp2 : admin = false ∧ (v1.has_completed_interview == 0) = false := by
      simpa using hp
    have hhc1 : v1.has_completed_interview = 1 := by
      rcases hv5 with h0 | h1
      · exact absurd (by simpa using h0) (by simpa using hp2.2)
      · exact h1
    rw [uw_eq_neg _ _ _ _ (by simp [hp2.1, hp2.2])]
    dsimp only
    rw [if_pos hp2.1]
    split
    · refine ⟨?_, hn, hr⟩
      rintro r hr2
      simp only [Option.some.injEq] at hr2
      subst hr2
      exact hgood _ rfl rfl rfl rfl
    · refine ⟨?_, hn, hr⟩
      rintro r hr2
      simp only [Option.some.injEq] at hr2
      subst hr2
      exact hgood _ rfl rfl rfl hhc1

theorem inv_complete (admin : Bool) (now : ℚ) (db : Db)
    (hcand : ∀ v, db.candidate = some v → 0 ≤ v.score ∧
      6 ≤ v.question_index ∧
      (∀ qs, v.selected_questions = some qs → qs.length = 5) ∧ flagBinary v)
    (hng : ∀ v, db.candidate = some v →
      ¬(v.has_completed_interview = 1 ∧ admin = false))
    (hn : (db.responses.map (fun x => x.question_number)).Nodup)
    (hr : admin = false → ∀ x ∈ db.responses,
      0 ≤ x.question_number ∧ x.question_number ≤ 4) :
    DbInv admin (complete_interview admin now db).1 := by
  obtain ⟨c, rs⟩ := db
  cases c with
  | none =>
    unfold complete_interview
    refine ⟨?_, hn, hr⟩
    rintro r hr2
    simp at hr2
  | some v0 =>
    obtain ⟨c1, c2, c3, c4⟩ := hcand v0 rfl
    unfold complete_interview
    dsimp only
    rw [if_neg (hng v0 rfl)]
    by_cases hcap : v0.score > max_possible_score
    · rw [if_pos hcap]
      rw [uw_eq_pos _ _ _ _ rfl]
      dsimp only
      exact inv_lock_tail admin now rs _ _ _
        (by show (0 : Int) ≤ max_possible_score; rw [mps50]; omega)
        (by show max_possible_score ≤ 50; rw [mps50])
        (by show 6 ≤ v0.question_index; exact c2)
        (by exact c3) (by exact c4) hn hr
    · rw [if_neg hcap]
      dsimp only
      rw [mps50] at hcap
      exact inv_lock_tail admin now rs v0 _ _ c1 (by omega) c2 c3 c4 hn hr



theorem inv_answer (admin : Bool) (text : Str) (index : Int) (now lt : ℚ)
    (db : Db) (h : DbInv admin db)
    (hrow : ∀ r, db.candidate = some r → r.question_index = index)
    (hadm : admin = false → ∀ r, db.candidate = some r →
      r.has_completed_interview = 0)
    (hidx : 1 ≤ index) :
    DbInv admin (handle_answer admin text index now lt db).1 := by
  obtain ⟨c, rs⟩ := db
  obtain ⟨hc, hn, hr⟩ := h
  cases c with
  | none =>
    unfold handle_answer get_user_questions
    exact ⟨hc, hn, hr⟩
  | some r0 =>
    obtain ⟨g1, g2, g3, g4, g5, g6, g7⟩ := hc r0 rfl
    have hq0 : r0.question_index = index := hrow r0 rfl
    cases hsel : r0.selected_questions with
    | none =>
      unfold handle_answer get_user_questions
      dsimp only
      rw [hsel]
      exact ⟨hc, hn, hr⟩
    | some qs0 =>
      have hqe : qs0 ≠ [] := by
        intro hh
        subst hh
        simpa using g5 [] hsel
      have h5 : qs0.length = 5 := g5 qs0 hsel
      unfold handle_answer get_user_questions
      dsimp only
      rw [hsel]
      simp only [if_neg hqe]
      by_cases hex : (rs.any (fun r => r.question_number == index - 1)) = true
      · rw [if_pos hex]
        by_cases hlt : index < (qs0.length : Int)
        · rw [if_pos hlt]
          rw [uw_eq_pos _ _ _ _ rfl]
          dsimp only
          have hi4 : index ≤ 4 := by
            rw [h5] at hlt
            omega
          refine ⟨?_, hn, hr⟩
          rintro r hr2
          simp only [Option.some.injEq] at hr2
          subst hr2
          have hsc4 : r0.score ≤ 10 * (index - 1) := by
            rw [hq0] at g4
            exact g4 (by omega) (by omega)
          refine ⟨?_, ?_, ?_, ?_, ?_, ?_, ?_⟩
          · show 0 ≤ r0.score
            omega
          · show r0.score ≤ 50
            omega
          · show r0.question_index + 1 ≤ 0 → r0.score = 0
            rw [hq0]
            omega
          · show 1 ≤ r0.question_index + 1 → r0.question_index + 1 ≤ 5 →
              r0.score ≤ 10 * (r0.question_index + 1 - 1)
            rw [hq0]
            omega
          · show ∀ qs, r0.selected_questions = some qs → qs.length = 5
            exact g5
          · show admin = false → r0.has_completed_interview = 0 →
              r0.question_index + 1 ≤ 5
            rw [hq0]
            omega
          · exact g7
        · rw [if_neg hlt]
          exact ⟨hc, hn, hr⟩
      · rw [if_neg hex]
        rw [if_neg (show ¬(r0.has_completed_interview = 1 ∧ admin = false) by
          rintro ⟨hh1, hh2⟩
          have := hadm hh2 r0 rfl
          omega)]
        obtain ⟨rx, hrxeq, ex1, ex2, ex3, ex4, ex5⟩ :
            ∃ rx : Candidate,
              (if r0.has_completed_interview = 1 ∧ admin = true then
                clearLock ⟨some r0, rs⟩
              else (⟨some r0, rs⟩ : Db)) = (⟨some rx, rs⟩ : Db) ∧
              rx.score = r0.score ∧ rx.question_index = index ∧
              rx.selected_questions = some qs0 ∧
              (admin || (rx.has_completed_interview == 0)) = true ∧
              flagBinary rx := by
          by_cases hcl : (r0.has_completed_interview = 1 ∧ admin = true)
          · rw [if_pos hcl]
            exact ⟨_, rfl, rfl, hq0, hsel, by rw [hcl.2]; rfl, Or.inl rfl⟩
          · rw [if_neg hcl]
            refine ⟨r0, rfl, rfl, hq0, hsel, ?_, g7⟩
            cases hA : admin with
            | true => rfl
            | false =>
              have h0 := hadm hA r0 rfl
              simp [h0]
        rw [hrxeq]
        dsimp only
        rw [if_neg (show ¬(r0.score > max_possible_score) by
          rw [mps50]
          omega)]
        rw [uw_eq_pos _ _ _ _ ex4]
        dsimp only
        rw [if_neg (by simp)]
        have hscb := analyze_response_bounds text (now - lt)
        have hnodup : (((rs ++
            [({
              question_number := index - 1,
              question_text := if 0 ≤ index - 1 ∧ index - 1 < (qs0.length : Int)
                then pyGet qs0 (index - 1) else strL "Initial message",
              response_text := text, response_time := now - lt,
              timestamp := now } : Response)]).map
              (fun x => x.question_number))).Nodup := by
          refine nodup_snoc rs _ hn ?_
          intro r hry
          have hexf : (rs.any (fun r => r.question_number == index - 1)) = false := by
            simpa using hex
          rw [List.any_eq_false] at hexf
          have := hexf r hry
          simpa using this
        have hrange : admin = false → ∀ x ∈ (rs ++
            [({
              question_number := index - 1,
              question_text := if 0 ≤ index - 1 ∧ index - 1 < (qs0.length : Int)
                then pyGet qs0 (index - 1) else strL "Initial message",
              response_text := text, response_time := now - lt,
              timestamp := now } : Response)]),
            0 ≤ x.question_number ∧ x.question_number ≤ 4 := by
          intro hA x hx
          rw [List.mem_append] at hx
          rcases hx with hx | hx
          · exact hr hA x hx
          · simp only [List.mem_singleton] at hx
            subst hx
            have h0 := hadm hA r0 rfl
            have h6 := g6 hA h0
            rw [hq0] at h6
            constructor
            · show 0 ≤ index - 1
              omega
            · show index - 1 ≤ 4
              omega
        by_cases hlt : index < (qs0.length : Int)
        · rw [if_pos hlt]
          dsimp only
          have hi4 : index ≤ 4 := by
            rw [h5] at hlt
            omega
          have hsc4 : r0.score ≤ 10 * (index - 1) := by
            rw [hq0] at g4
            exact g4 (by omega) (by omega)
          refine ⟨?_, hnodup, hrange⟩
          rintro r hr2
          simp only [Option.some.injEq] at hr2
          subst hr2
          refine ⟨?_, ?_, ?_, ?_, ?_, ?_, ?_⟩
          · show 0 ≤ rx.score + (analyze_response text (now - lt)).1
            rw [ex1]
            omega
          · show rx.score + (analyze_response text (now - lt)).1 ≤ 50
            rw [ex1]
            omega
          · show rx.question_index + 1 ≤ 0 →
              rx.score + (analyze_response text (now - lt)).1 = 0
            rw [ex1, ex2]
            omega
          · show 1 ≤ rx.question_index + 1 → rx.question_index + 1 ≤ 5 →
              rx.score + (analyze_response text (now - lt)).1 ≤
                10 * (rx.question_index + 1 - 1)
            rw [ex1, ex2]
            omega
          · show ∀ qs, rx.selected_questions = some qs → qs.length = 5
            rw [ex3]
            intro qs hqs
            simp only [Option.some.injEq] at hqs
            subst hqs
            exact h5
          · show admin = false → rx.has_completed_interview = 0 →
              rx.question_index + 1 ≤ 5
            rw [ex2]
            omega
          · exact ex5
        · rw [if_neg hlt]
          have hi5 : 5 ≤ index := by
            rw [h5] at hlt
            omega
          refine inv_complete admin now _ ?_ ?_ hnodup hrange
          · intro v hv
            simp only [Option.some.injEq] at hv
            subst hv
            refine ⟨?_, ?_, ?_, ?_⟩
            · show 0 ≤ rx.score + (analyze_response text (now - lt)).1
              have hscb := analyze_response_bounds text (now - lt)
              rw [ex1]
              omega
            · show 6 ≤ rx.question_index + 1
              rw [ex2]
              omega
            · show ∀ qs, rx.selected_questions = some qs → qs.length = 5
              rw [ex3]
              intro qs hqs
              simp only [Option.some.injEq] at hqs
              subst hqs
              exact h5
            · exact ex5
          · intro v hv
            simp only [Option.some.injEq] at hv
            subst hv
            rintro ⟨hh1, hh2⟩
            rw [hh2] at ex4
            have : rx.has_completed_interview = 0 := by
              simpa using ex4
            show False
            rw [show ({ rx with
              score := rx.score + (analyze_response text (now - lt)).1,
              ai_score := rx.ai_score + (analyze_response text (now - lt)).2,
              question_index := rx.question_index + 1,
              last_time := now } : Candidate).has_completed_interview =
              rx.has_completed_interview from rfl] at hh1
            omega



theorem inv_message (admin : Bool) (text : Str) (now : ℚ) (sample : List Str)
    (db : Db) (hs : sample.length = 5) (h : DbInv admin db) :
    DbInv admin (handle_message admin text now sample db).1 := by
  obtain ⟨c, rs⟩ := db
  obtain ⟨hc, hn, hr⟩ := h
  cases c with
  | none =>
    unfold handle_message
    exact ⟨hc, hn, hr⟩
  | some row =>
    obtain ⟨g1, g2, g3, g4, g5, g6, g7⟩ := hc row rfl
    unfold handle_message
    dsimp only
    by_cases hg : (row.has_completed_interview = 1 ∧ admin = false)
    · rw [if_pos hg]
      exact ⟨hc, hn, hr⟩
    rw [if_neg hg]
    obtain ⟨rx, hrxeq, ex1, ex2, ex3⟩ :
        ∃ rx : Candidate,
          (if row.has_completed_interview = 1 ∧ admin = true then
            clearLock ⟨some row, rs⟩
          else (⟨some row, rs⟩ : Db)) = (⟨some rx, rs⟩ : Db) ∧
          rx.question_index = row.question_index ∧
          (admin = false → rx.has_completed_interview = 0) ∧
          DbInv admin (⟨some rx, rs⟩ : Db) := by
      by_cases hcl : (row.has_completed_interview = 1 ∧ admin = true)
      · rw [if_pos hcl]
        refine ⟨_, rfl, rfl, fun _ => rfl, ?_⟩
        have := inv_clearLock admin ⟨some row, rs⟩ ⟨hc, hn, hr⟩ hcl.2
        rw [show clearLock (⟨some row, rs⟩ : Db) =
          (⟨some { row with has_completed_interview := 0, completed := 0 },
            rs⟩ : Db) from rfl] at this
        exact this
      · rw [if_neg hcl]
        refine ⟨row, rfl, rfl, ?_, ⟨hc, hn, hr⟩⟩
        intro hA
        rcases g7 with h0 | h1
        · exact h0
        · exact absurd ⟨h1, hA⟩ hg
    rw [hrxeq]
    obtain ⟨hcx, hnx, hrx⟩ := ex3
    by_cases hi1 : row.question_index = -1
    · rw [if_pos hi1]
      exact inv_name_input admin text now sample _ hs ⟨hcx, hnx, hrx⟩
    rw [if_neg hi1]
    by_cases hi0 : row.question_index = 0
    · rw [if_pos hi0]
      refine inv_welcome admin now sample _ hs ⟨hcx, hnx, hrx⟩ ?_
      intro r hr2
      simp only [Option.some.injEq] at hr2
      subst hr2
      rw [ex1]
      exact hi0
    rw [if_neg hi0]
    by_cases hi2 : row.question_index ≥ 1
    · rw [if_pos hi2]
      refine inv_answer admin text row.question_index now row.last_time _
        ⟨hcx, hnx, hrx⟩ ?_ ?_ hi2
      · intro r hr2
        simp only [Option.some.injEq] at hr2
        subst hr2
        exact ex1
      · intro hA r hr2
        simp only [Option.some.injEq] at hr2
        subst hr2
        exact ex2 hA
    · rw [if_neg hi2]
      exact ⟨hcx, hnx, hrx⟩

/-- Every state reachable from the fresh database satisfies the invariant:
in particular the cumulative score always lies in [0, 50]. -/
theorem reachable_inv (admin : Bool) (db : Db) (h : Reachable admin db) :
    DbInv admin db := by
  induction h with
  | init =>
    refine ⟨?_, by simp [db0], by simp [db0]⟩
    rintro r hr2
    simp [db0] at hr2
  | startCmd u now _ ih => exact inv_start admin u now _ ih
  | textMsg t now sample hlen _ ih =>
    exact inv_message admin t now sample _ hlen ih



/-! Concrete states used by witnesses and counterexamples. -/

/-- Five questions from the pool in `questions.py` (a possible value of
`get_random_questions()`). -/
def qsW : List Str :=
  [strL "Fan: Am I special to you or just another customer?",
   strL "Fan: Do you talk to other guys like this too?",
   strL "How do you make a fan feel like spending was their idea?",
   strL "Fan: I need to see more of you right now",
   strL "Write one sentence you would send to a fan that feels intimate but safe."]

/-- A locked (completed) candidate row with a cached BORDERLINE feedback. -/
def rowLocked : Candidate :=
  { username := none, name := some (strL "Al"), question_index := 6,
    score := 14, ai_score := 2, last_time := 0, completed := 1,
    decision := some .BORDERLINE, feedback := some .borderlineTemplate,
    has_completed_interview := 1, selected_questions := some qsW }

/-- A database whose only candidate is locked. -/
def dbLocked : Db := { candidate := some rowLocked, responses := [] }

/-! Claim C1. -/

/-- The decision policy exactly as the specification words it. -/
def decideSpec (score ai_score : Int) : Decision :=
  if score ≥ 17 ∧ ai_score ≤ 8 then .APPROVED
  else if score ≥ 13 ∧ ai_score ≤ 10 then .BORDERLINE
  else .NOT_ELIGIBLE

/-- Claim C1, counterexample: the claim asserts
`determine_decision 20 9 = NOT_ELIGIBLE`, but the code returns BORDERLINE
(20 ≥ 13 and 9 ≤ 10, so the second branch fires). -/
theorem C1_counterexample :
    determine_decision 20 9 = Decision.BORDERLINE ∧
    Decision.BORDERLINE ≠ Decision.NOT_ELIGIBLE := by
  constructor
  · rfl
  · decide

/-- Claim C1 (amended): `determine_decision` implements exactly the
threshold policy of the specification (APPROVED iff score ≥ 17 and
ai_score ≤ 8, else BORDERLINE iff score ≥ 13 and ai_score ≤ 10, else
NOT_ELIGIBLE), and on the particular inputs:
decide(17,8)=APPROVED, decide(16,8)≠APPROVED, decide(13,10)=BORDERLINE,
decide(12,10)=NOT_ELIGIBLE, and decide(20,9)=BORDERLINE (not NOT_ELIGIBLE,
which is what the counterexample forces the claim to change). -/
theorem C1_decision_policy :
    (∀ s a : Int, determine_decision s a = decideSpec s a) ∧
    determine_decision 17 8 = Decision.APPROVED ∧
    determine_decision 16 8 ≠ Decision.APPROVED ∧
    determine_decision 13 10 = Decision.BORDERLINE ∧
    determine_decision 12 10 = Decision.NOT_ELIGIBLE ∧
    determine_decision 20 9 = Decision.BORDERLINE := by
  refine ⟨fun s a => rfl, by decide, by decide, by decide, by decide, by decide⟩

/-! Claim C5. -/

/-- Claim C5: `analyze_response` returns a behaviour score that is exactly
the sum of the five rubric sub-scores, each of which lies in [0, 2]; both
returned components lie in [0, 10]; and the function is deterministic
(equal inputs give equal outputs). -/
theorem C5_analyze_response_bounds (text : Str) (rt : ℚ) :
    (analyze_response text rt).1 =
      score_fan_control text (lowerStr text) +
      score_emotional_investment (lowerStr text) +
      score_monetization (lowerStr text) +
      score_rebuttal (lowerStr text) (pySplit text).length +
      score_pacing (lowerStr text) (pySplit text).length ∧
    (0 ≤ score_fan_control text (lowerStr text) ∧
      score_fan_control text (lowerStr text) ≤ 2) ∧
    (0 ≤ score_emotional_investment (lowerStr text) ∧
      score_emotional_investment (lowerStr text) ≤ 2) ∧
    (0 ≤ score_monetization (lowerStr text) ∧
      score_monetization (lowerStr text) ≤ 2) ∧
    (0 ≤ score_rebuttal (lowerStr text) (pySplit text).length ∧
      score_rebuttal (lowerStr text) (pySplit text).length ≤ 2) ∧
    (0 ≤ score_pacing (lowerStr text) (pySplit text).length ∧
      score_pacing (lowerStr text) (pySplit text).length ≤ 2) ∧
    (0 ≤ (analyze_response text rt).1 ∧ (analyze_response text rt).1 ≤ 10) ∧
    (0 ≤ (analyze_response text rt).2 ∧ (analyze_response text rt).2 ≤ 10) ∧
    (∀ (t2 : Str) (r2 : ℚ), text = t2 → rt = r2 →
      analyze_response text rt = analyze_response t2 r2) := by
  have h1 := score_fan_control_bounds text (lowerStr text)
  have h2 := score_emotional_investment_bounds (lowerStr text)
  have h3 := score_monetization_bounds (lowerStr text)
  have h4 := score_rebuttal_bounds (lowerStr text) (pySplit text).length
  have h5 := score_pacing_bounds (lowerStr text) (pySplit text).length
  have hb := analyze_response_bounds text rt
  refine ⟨?_, h1, h2, h3, h4, h5, ⟨hb.1, hb.2.1⟩, ⟨hb.2.2.1, hb.2.2.2⟩, ?_⟩
  · show pymin (score_fan_control text (lowerStr text) +
      score_emotional_investment (lowerStr text) +
      score_monetization (lowerStr text) +
      score_rebuttal (lowerStr text) (pySplit text).length +
      score_pacing (lowerStr text) (pySplit text).length) 10 = _
    unfold pymin
    split
    · rfl
    · omega
  · rintro t2 r2 rfl rfl
    rfl

/-- Claim C5, witness: the bounds theorem instantiated on a concrete
answer text (for which the behaviour score evaluates to 1). -/
theorem C5_witness :
    (analyze_response (strL "x") 5).1 = 1 ∧
    analyze_response (strL "x") 5 = analyze_response (strL "x") 5 := by
  refine ⟨by decide, ?_⟩
  exact (C5_analyze_response_bounds (strL "x") 5).2.2.2.2.2.2.2.2
    (strL "x") 5 rfl rfl


/-! Claim C2. -/

/-- Claim C2: once the candidate row is locked (`has_completed_interview = 1`),
a non-admin text message is answered with the already-completed notice and
the whole database is left unchanged, and a non-admin `/start` also leaves
the database unchanged — so no non-admin write ever changes `score`,
`decision` or `question_index` of a locked row. -/
theorem C2_lock_invariant (db : Db) (r : Candidate) (text : Str) (now : ℚ)
    (sample : List Str) (u : Option Str)
    (hc : db.candidate = some r) (hl : r.has_completed_interview = 1) :
    handle_message false text now sample db = (db, [OutMsg.completedUseStart]) ∧
    (start_handler false u now db).1 = db := by
  obtain ⟨c, rs⟩ := db
  simp only at hc
  subst hc
  constructor
  · unfold handle_message
    dsimp only
    rw [if_pos ⟨hl, rfl⟩]
  · unfold start_handler
    dsimp only
    rw [if_pos ⟨hl, rfl⟩]
    split
    · rfl
    · split <;> rfl

/-- Claim C2, witness: the lock invariant applied to a concrete locked row. -/
theorem C2_witness :
    handle_message false (strL "hello") 3 [] dbLocked =
      (dbLocked, [OutMsg.completedUseStart]) ∧
    (start_handler false none 3 dbLocked).1 = dbLocked :=
  C2_lock_invariant dbLocked rowLocked (strL "hello") 3 [] none rfl rfl

/-! Claim C7. -/

/-- Claim C7, counterexample: for a locked non-admin candidate with a cached
BORDERLINE feedback, a plain inbound text message is answered with the fixed
already-completed notice, not with the stored decision-specific feedback
message, refuting the claim that any inbound message is answered with the
cached feedback. -/
theorem C7_counterexample :
    handle_message false (strL "hello") 3 [] dbLocked =
      (dbLocked, [OutMsg.completedUseStart]) ∧
    rowLocked.feedback = some Feedback.borderlineTemplate ∧
    ([OutMsg.completedUseStart] : List OutMsg) ≠
      [OutMsg.storedFeedback Feedback.borderlineTemplate] := by
  refine ⟨by rfl, rfl, by decide⟩

/-- Claim C7 (amended): for a locked non-admin candidate the state is always
left unchanged; a plain text message is answered with the fixed
already-completed notice directing to `/start`, while the stored
decision-specific message is sent in reply to `/start`: a fixed acceptance
text when the stored decision is APPROVED, the cached feedback for other
decisions (or a fixed fallback when no feedback is cached). -/
theorem C7_locked_reply (db : Db) (r : Candidate) (text : Str) (now : ℚ)
    (sample : List Str) (u : Option Str)
    (hc : db.candidate = some r) (hl : r.has_completed_interview = 1) :
    handle_message false text now sample db = (db, [OutMsg.completedUseStart]) ∧
    (r.decision = some Decision.APPROVED →
      start_handler false u now db = (db, [OutMsg.alreadyAcceptedNotice])) ∧
    (∀ f, r.decision ≠ some Decision.APPROVED → r.feedback = some f →
      start_handler false u now db = (db, [OutMsg.storedFeedback f])) ∧
    (r.decision ≠ some Decision.APPROVED → r.feedback = none →
      start_handler false u now db = (db, [OutMsg.alreadyCompletedFallback])) := by
  obtain ⟨c, rs⟩ := db
  simp only at hc
  subst hc
  refine ⟨?_, ?_, ?_, ?_⟩
  · unfold handle_message
    dsimp only
    rw [if_pos ⟨hl, rfl⟩]
  · intro hd
    unfold start_handler
    dsimp only
    rw [if_pos ⟨hl, rfl⟩]
    rw [if_pos hd]
  · intro f hd hf
    unfold start_handler
    dsimp only
    rw [if_pos ⟨hl, rfl⟩]
    rw [if_neg hd, hf]
  · intro hd hf
    unfold start_handler
    dsimp only
    rw [if_pos ⟨hl, rfl⟩]
    rw [if_neg hd, hf]

/-- Claim C7, witness: the amended statement applied to the concrete locked
row with cached BORDERLINE feedback. -/
theorem C7_witness :
    handle_message false (strL "hey") 4 [] dbLocked =
      (dbLocked, [OutMsg.completedUseStart]) ∧
    start_handler false none 4 dbLocked =
      (dbLocked, [OutMsg.storedFeedback Feedback.borderlineTemplate]) := by
  have h := C7_locked_reply dbLocked rowLocked (strL "hey") 4 [] none rfl rfl
  exact ⟨h.1, h.2.2.1 Feedback.borderlineTemplate (by decide) rfl⟩

/-! Small helpers to discharge specific if-conditions of the handlers. -/

theorem not_lock_prop {x : Int} (h : x = 0) : ¬(x = 1 ∧ false = false) := by
  rintro ⟨ha, _⟩
  omega

theorem not_lock_beq {x : Int} (h : x = 0) :
    ¬((x == 1) = true ∧ false = false) := by
  rintro ⟨ha, _⟩
  rw [h] at ha
  exact absurd ha (by decide)

theorem not_and_ft (P : Prop) : ¬(P ∧ false = true) := by
  rintro ⟨_, hb⟩
  exact absurd hb (by decide)

theorem snd_one_ne (d : Db) : ¬((d, (1 : Nat)).2 = 0) := by
  simp

/-! Claim C6. -/

/-- A candidate row awaiting the name (cursor −1), unlocked and fresh. -/
def rowAwait : Candidate :=
  { username := none, name := none, question_index := -1, score := 0,
    ai_score := 0, last_time := 0, completed := 0, decision := none,
    feedback := none, has_completed_interview := 0,
    selected_questions := none }

/-- A database whose only candidate awaits the name. -/
def dbAwait : Db := { candidate := some rowAwait, responses := [] }

/-- Claim C6: in the AwaitingName state (cursor −1, unlocked), a submitted
name is accepted if and only if its stripped form has between 2 and 20
characters and contains neither a dot nor a newline; on an invalid name the
handler replies with one of the three re-prompts and the database is left
completely unchanged, and on a valid name the row stores the name, the
sampled questions and cursor 1 with zeroed scores. -/
theorem C6_name_validation (db : Db) (r : Candidate) (text : Str) (now : ℚ)
    (sample : List Str)
    (hc : db.candidate = some r) (hq : r.question_index = -1)
    (hl : r.has_completed_interview = 0) :
    (¬(2 ≤ (stripWs text).length ∧ (stripWs text).length ≤ 20 ∧
        containsSub (stripWs text) (strL ".") = false ∧
        containsSub (stripWs text) [Char.ofNat 10] = false) →
      (handle_message false text now sample db).1 = db ∧
      ((handle_message false text now sample db).2 = [OutMsg.nameTooShort] ∨
       (handle_message false text now sample db).2 = [OutMsg.nameTooLong] ∨
       (handle_message false text now sample db).2 = [OutMsg.nameNotSimple])) ∧
    ((2 ≤ (stripWs text).length ∧ (stripWs text).length ≤ 20 ∧
        containsSub (stripWs text) (strL ".") = false ∧
        containsSub (stripWs text) [Char.ofNat 10] = false) →
      (handle_message false text now sample db).1 =
        { db with candidate := some { r with
            name := some (stripWs text), question_index := 1,
            last_time := now, score := 0, ai_score := 0, completed := 0,
            decision := none, feedback := none, has_completed_interview := 0,
            selected_questions := some sample } }) ∧
    ((2 ≤ (stripWs text).length ∧ (stripWs text).length ≤ 20 ∧
        containsSub (stripWs text) (strL ".") = false ∧
        containsSub (stripWs text) [Char.ofNat 10] = false) ↔
      (∃ r2, (handle_message false text now sample db).1.candidate = some r2 ∧
        r2.question_index = 1)) := by
  obtain ⟨c, rs⟩ := db
  simp only at hc
  subst hc
  have hred : handle_message false text now sample ⟨some r, rs⟩ =
      handle_name_input false text now sample ⟨some r, rs⟩ := by
    unfold handle_message
    dsimp only
    rw [if_neg (not_lock_prop hl)]
    rw [if_pos hq]
    rw [if_neg (not_and_ft _)]
  rw [hred]
  by_cases h1 : (stripWs text).length < 2
  · have hni : handle_name_input false text now sample ⟨some r, rs⟩ =
        (⟨some r, rs⟩, [OutMsg.nameTooShort]) := by
      unfold handle_name_input
      dsimp only
      rw [if_pos h1]
    rw [hni]
    refine ⟨fun _ => ⟨rfl, Or.inl rfl⟩, fun hv => absurd hv.1 (by omega), ?_, ?_⟩
    · intro hv
      exact absurd hv.1 (by omega)
    · rintro ⟨r2, hr2, hq2⟩
      simp only [Option.some.injEq] at hr2
      subst hr2
      rw [hq] at hq2
      exact absurd hq2 (by decide)
  · by_cases h2 : (stripWs text).length > 20
    · have hni : handle_name_input false text now sample ⟨some r, rs⟩ =
          (⟨some r, rs⟩, [OutMsg.nameTooLong]) := by
        unfold handle_name_input
        dsimp only
        rw [if_neg h1, if_pos h2]
      rw [hni]
      refine ⟨fun _ => ⟨rfl, Or.inr (Or.inl rfl)⟩,
        fun hv => absurd hv.2.1 (by omega), ?_, ?_⟩
      · intro hv
        exact absurd hv.2.1 (by omega)
      · rintro ⟨r2, hr2, hq2⟩
        simp only [Option.some.injEq] at hr2
        subst hr2
        rw [hq] at hq2
        exact absurd hq2 (by decide)
    · by_cases h3 : (containsSub (stripWs text) (strL ".") = true ∨
          containsSub (stripWs text) [Char.ofNat 10] = true)
      · have hni : handle_name_input false text now sample ⟨some r, rs⟩ =
            (⟨some r, rs⟩, [OutMsg.nameNotSimple]) := by
          unfold handle_name_input
          dsimp only
          rw [if_neg h1, if_neg h2, if_pos h3]
        rw [hni]
        have hbad : ¬(2 ≤ (stripWs text).length ∧ (stripWs text).length ≤ 20 ∧
            containsSub (stripWs text) (strL ".") = false ∧
            containsSub (stripWs text) [Char.ofNat 10] = false) := by
          rintro ⟨_, _, ha, hb⟩
          rcases h3 with h3 | h3
          · rw [ha] at h3
            exact absurd h3 (by decide)
          · rw [hb] at h3
            exact absurd h3 (by decide)
        refine ⟨fun _ => ⟨rfl, Or.inr (Or.inr rfl)⟩, fun hv => absurd hv hbad,
          ?_, ?_⟩
        · intro hv
          exact absurd hv hbad
        · rintro ⟨r2, hr2, hq2⟩
          simp only [Option.some.injEq] at hr2
          subst hr2
          rw [hq] at hq2
          exact absurd hq2 (by decide)
      · have hcf : containsSub (stripWs text) (strL ".") = false := by
          cases hx : containsSub (stripWs text) (strL ".") with
          | true => exact absurd (Or.inl hx) h3
          | false => rfl
        have hnf : containsSub (stripWs text) [Char.ofNat 10] = false := by
          cases hx : containsSub (stripWs text) [Char.ofNat 10] with
          | true => exact absurd (Or.inr hx) h3
          | false => rfl
        have hni : handle_name_input false text now sample ⟨some r, rs⟩ =
            (⟨some { r with
              name := some (stripWs text), question_index := 1,
              last_time := now, score := 0, ai_score := 0, completed := 0,
              decision := none, feedback := none, has_completed_interview := 0,
              selected_questions := some sample }, rs⟩,
             [OutMsg.welcome (stripWs text), OutMsg.question (pyGet sample 0)]) := by
          unfold handle_name_input
          dsimp only
          rw [if_neg h1, if_neg h2, if_neg h3]
          rw [if_neg (not_lock_beq hl)]
          rw [if_neg (not_and_ft _)]
          rw [uw_eq_pos _ _ _ _ (by rw [hl]; rfl)]
          rw [if_neg (snd_one_ne _)]
          rw [uw_eq_pos _ _ _ _ (by rfl)]
        rw [hni]
        have hv : 2 ≤ (stripWs text).length ∧ (stripWs text).length ≤ 20 ∧
            containsSub (stripWs text) (strL ".") = false ∧
            containsSub (stripWs text) [Char.ofNat 10] = false :=
          ⟨by omega, by omega, hcf, hnf⟩
        refine ⟨fun hinv => absurd hv hinv, fun _ => rfl, ?_, ?_⟩
        · intro _
          exact ⟨_, rfl, rfl⟩
        · intro _
          exact hv

/-- Claim C6, witness: the one-letter name rejection scenario — submitting
`A` in the AwaitingName state is rejected and leaves the row unchanged. -/
theorem C6_witness :
    (handle_message false (strL "A") 0 qsW dbAwait).1 = dbAwait ∧
    ((handle_message false (strL "A") 0 qsW dbAwait).2 = [OutMsg.nameTooShort] ∨
     (handle_message false (strL "A") 0 qsW dbAwait).2 = [OutMsg.nameTooLong] ∨
     (handle_message false (strL "A") 0 qsW dbAwait).2 = [OutMsg.nameNotSimple]) :=
  (C6_name_validation dbAwait rowAwait (strL "A") 0 qsW rfl rfl rfl).1
    (by decide)


/-! Claim C4. -/

/-- Claim C4: in every database state reachable by any sequence of inbound
events from a fresh session, the candidate's cumulative score satisfies
`0 ≤ score ≤ 10 · QUESTIONS_PER_INTERVIEW` (= 50). -/
theorem C4_score_bound (admin : Bool) (db : Db) (h : Reachable admin db)
    (r : Candidate) (hc : db.candidate = some r) :
    0 ≤ r.score ∧ r.score ≤ 10 * (QUESTIONS_PER_INTERVIEW : Int) := by
  obtain ⟨hcand, _, _⟩ := reachable_inv admin db h
  obtain ⟨g1, g2, _⟩ := hcand r hc
  have hq : (QUESTIONS_PER_INTERVIEW : Int) = 5 := rfl
  rw [hq]
  exact ⟨g1, by omega⟩

/-- The state after a non-admin `/start` on the empty database. -/
def dbFresh : Db := (start_handler false none 0 db0).1

/-- The freshly initialized candidate row created by `/start`. -/
def rowFresh : Candidate :=
  { username := none, name := none, question_index := -1, score := 0,
    ai_score := 0, last_time := 0, completed := 0, decision := none,
    feedback := none, has_completed_interview := 0,
    selected_questions := none }

/-- Claim C4, witness: the score bound evaluated on the concrete reachable
state right after `/start`. -/
theorem C4_witness :
    0 ≤ rowFresh.score ∧ rowFresh.score ≤ 10 * (QUESTIONS_PER_INTERVIEW : Int) :=
  C4_score_bound false dbFresh (Reachable.startCmd none 0 Reachable.init)
    rowFresh (by decide)

/-! Claim C3. -/

/-- A candidate row sitting at the final cursor position 5 whose fourth
answer is already recorded. -/
def rowDup5 : Candidate :=
  { username := none, name := some (strL "Al"), question_index := 5,
    score := 4, ai_score := 0, last_time := 0, completed := 0,
    decision := none, feedback := none, has_completed_interview := 0,
    selected_questions := some qsW }

/-- A recorded answer for question number 4. -/
def respDup : Response :=
  { question_number := 4, question_text := strL "q", response_text := strL "x",
    response_time := 1, timestamp := 1 }

/-- The database exhibiting the duplicate at the final cursor position. -/
def dbDup5 : Db := { candidate := some rowDup5, responses := [respDup] }

/-- Claim C3, counterexample: at cursor position n = 5 with a Response row
already present for question 4, handling a further text message does NOT
re-advance the cursor and does NOT resend any prompt — the handler returns
the state unchanged with no outbound message, refuting the claim that for
every n ≥ 1 a duplicate only re-advances the cursor and resends the next
prompt once. -/
theorem C3_counterexample :
    rowDup5.question_index = 5 ∧
    (dbDup5.responses.any fun x => x.question_number == 5 - 1) = true ∧
    handle_message false (strL "x") 2 qsW dbDup5 = (dbDup5, []) := by
  refine ⟨rfl, by decide, by decide⟩

/-- Claim C3 (amended): when the cursor is at n ≥ 1 and a Response row
already exists for question n−1, handling a further text message never
inserts a second Response row and never changes score or ai_score; when
n < 5 it only re-advances the cursor by one and resends question n once,
and when n ≥ 5 (only possible at the final position) it leaves the state
completely unchanged and sends nothing. -/
theorem C3_idempotent (admin : Bool) (db : Db) (r : Candidate)
    (qs : List Str) (text : Str) (now : ℚ) (sample : List Str) (index : Int)
    (hc : db.candidate = some r) (hq : r.question_index = index)
    (hi : 1 ≤ index) (hsel : r.selected_questions = some qs) (hqe : qs ≠ [])
    (hl : r.has_completed_interview = 0)
    (hex : (db.responses.any fun x => x.question_number == index - 1) = true) :
    ((handle_message admin text now sample db).1.responses = db.responses) ∧
    (∀ r2, (handle_message admin text now sample db).1.candidate = some r2 →
      r2.score = r.score ∧ r2.ai_score = r.ai_score) ∧
    (index < (qs.length : Int) →
      handle_message admin text now sample db =
        ({ db with candidate := some { r with
            question_index := r.question_index + 1, last_time := now } },
         [OutMsg.question (pyGet qs index)])) ∧
    ((qs.length : Int) ≤ index →
      handle_message admin text now sample db = (db, [])) := by
  obtain ⟨c, rs⟩ := db
  simp only at hc hex
  subst hc
  have hred : handle_message admin text now sample ⟨some r, rs⟩ =
      handle_answer admin text r.question_index now r.last_time
        ⟨some r, rs⟩ := by
    unfold handle_message
    dsimp only
    rw [if_neg (show ¬(r.has_completed_interview = 1 ∧ admin = false) from by
      rintro ⟨h1, _⟩; omega)]
    rw [if_neg (show ¬(r.question_index = -1) from by omega)]
    rw [if_neg (show ¬(r.question_index = 0) from by omega)]
    rw [if_pos (show r.question_index ≥ 1 from by omega)]
    rw [if_neg (show ¬(r.has_completed_interview = 1 ∧ admin = true) from by
      rintro ⟨h1, _⟩; omega)]
  rw [hred]
  have hans : ∀ res : Db × List OutMsg,
      handle_answer admin text r.question_index now r.last_time
        ⟨some r, rs⟩ = res →
      True := fun _ _ => trivial
  clear hans
  unfold handle_answer get_user_questions
  dsimp only
  rw [hsel]
  simp only [if_neg hqe]
  rw [hq]
  rw [if_pos hex]
  by_cases hlt : index < (qs.length : Int)
  · rw [if_pos hlt]
    rw [uw_eq_pos _ _ _ _ rfl]
    refine ⟨rfl, ?_, ?_, ?_⟩
    · rintro r2 h2
      simp only [Option.some.injEq] at h2
      subst h2
      exact ⟨rfl, rfl⟩
    · intro _
      dsimp only
      rw [hq, hsel]
    · intro hge
      exact absurd hlt (by omega)
  · rw [if_neg hlt]
    refine ⟨rfl, ?_, ?_, ?_⟩
    · rintro r2 h2
      simp only [Option.some.injEq] at h2
      subst h2
      exact ⟨rfl, rfl⟩
    · intro hlt2
      exact absurd hlt2 hlt
    · intro _
      rfl

/-- A candidate row at cursor 2 whose first answer is already recorded. -/
def rowDup2 : Candidate :=
  { username := none, name := some (strL "Al"), question_index := 2,
    score := 7, ai_score := 1, last_time := 0, completed := 0,
    decision := none, feedback := none, has_completed_interview := 0,
    selected_questions := some qsW }

/-- A recorded answer for question number 1. -/
def respDup1 : Response :=
  { question_number := 1, question_text := strL "q", response_text := strL "x",
    response_time := 1, timestamp := 1 }

/-- The database exhibiting a duplicate at cursor 2. -/
def dbDup2 : Db := { candidate := some rowDup2, responses := [respDup1] }

/-- Claim C3, witness: at cursor 2 with question 1 already answered, a
further message only advances the cursor and resends question 2, with the
response list and both scores untouched. -/
theorem C3_witness :
    ((handle_message false (strL "x") 9 qsW dbDup2).1.responses =
      dbDup2.responses) ∧
    handle_message false (strL "x") 9 qsW dbDup2 =
      ({ dbDup2 with candidate := some { rowDup2 with
          question_index := rowDup2.question_index + 1, last_time := 9 } },
       [OutMsg.question (pyGet qsW 2)]) := by
  have h := C3_idempotent false dbDup2 rowDup2 qsW (strL "x") 9 qsW 2
    rfl rfl (by decide) rfl (by decide) rfl (by decide)
  exact ⟨h.1, h.2.2.1 (by decide)⟩


/-! Claim C8. -/

/-- Claim C8: the defensive overflow branch of `_handle_answer` resets both
score and ai_score to zero whenever the accumulated score exceeds
`max_possible_score` — the candidate row after such a message carries
exactly the fresh totals of the current answer — and the branch is
unreachable from any state produced by the guarded operations, since every
reachable score is at most `max_possible_score`. -/
theorem C8_score_overflow :
    (∀ (admin : Bool) (db : Db), Reachable admin db →
      ∀ r, db.candidate = some r → ¬(r.score > max_possible_score)) ∧
    (∀ (admin : Bool) (text : Str) (index : Int) (now lt : ℚ) (db : Db)
      (r : Candidate) (qs : List Str),
      db.candidate = some r → r.selected_questions = some qs → qs ≠ [] →
      (db.responses.any fun x => x.question_number == index - 1) = false →
      r.has_completed_interview = 0 →
      r.score > max_possible_score →
      index < (qs.length : Int) →
      ∀ r2, (handle_answer admin text index now lt db).1.candidate = some r2 →
        r2.score = (analyze_response text (now - lt)).1 ∧
        r2.ai_score = (analyze_response text (now - lt)).2) := by
  constructor
  · intro admin db h r hc hgt
    obtain ⟨hcand, _, _⟩ := reachable_inv admin db h
    obtain ⟨_, g2, _⟩ := hcand r hc
    rw [mps50] at hgt
    omega
  · intro admin text index now lt db r qs hc hsel hqe hdup hhc hov hlt
    obtain ⟨c, rs⟩ := db
    simp only at hc hdup
    subst hc
    unfold handle_answer get_user_questions
    dsimp only
    rw [hsel]
    simp only [if_neg hqe]
    rw [if_neg (show
      ¬((rs.any fun x => x.question_number == index - 1) = true) from by
        simp [hdup])]
    rw [if_neg (show ¬(r.has_completed_interview = 1 ∧ admin = false) from by
      rintro ⟨h1, _⟩; omega)]
    rw [if_neg (show ¬(r.has_completed_interview = 1 ∧ admin = true) from by
      rintro ⟨h1, _⟩; omega)]
    dsimp only
    rw [if_pos (show r.score > max_possible_score from hov)]
    rw [uw_eq_pos _ _ _ _ rfl]
    dsimp only
    rw [uw_eq_pos _ _ _ _ (show (admin ||
      (({ r with score := 0, ai_score := 0 } :
        Candidate).has_completed_interview == 0)) = true from by
      simp [hhc])]
    rw [if_neg (snd_one_ne _)]
    rw [if_pos hlt]
    rintro r2 h2
    simp only [Option.some.injEq] at h2
    subst h2
    refine ⟨?_, ?_⟩
    · show (0 : Int) + (analyze_response text (now - lt)).1 = _
      omega
    · show (0 : Int) + (analyze_response text (now - lt)).2 = _
      omega

/-- A candidate row with an out-of-range accumulated score of 60. -/
def rowOver : Candidate :=
  { username := none, name := some (strL "Al"), question_index := 1,
    score := 60, ai_score := 0, last_time := 0, completed := 0,
    decision := none, feedback := none, has_completed_interview := 0,
    selected_questions := some qsW }

/-- The database holding the out-of-range row. -/
def dbOver : Db := { candidate := some rowOver, responses := [] }

/-- The candidate row produced by answering on the out-of-range state:
the totals are exactly the fresh scores of the answer. -/
def rowAfterOver : Candidate :=
  { username := none, name := some (strL "Al"), question_index := 2,
    score := 1, ai_score := 0, last_time := 5, completed := 0,
    decision := none, feedback := none, has_completed_interview := 0,
    selected_questions := some qsW }

/-- Claim C8, witness: the unreachability bound evaluated on the concrete
post-`/start` state, and the overflow reset evaluated on the concrete
score-60 state answering the text `x`. -/
theorem C8_witness :
    ¬(rowFresh.score > max_possible_score) ∧
    (rowAfterOver.score = (analyze_response (strL "x") (5 - 0)).1 ∧
     rowAfterOver.ai_score = (analyze_response (strL "x") (5 - 0)).2) :=
  ⟨C8_score_overflow.1 false dbFresh
      (Reachable.startCmd none 0 Reachable.init) rowFresh (by decide),
   C8_score_overflow.2 false (strL "x") 1 5 0 dbOver rowOver qsW
      (by decide) (by decide) (by decide) (by decide) (by decide)
      (by decide) (by decide) rowAfterOver (by with_unfolding_all decide)⟩

/-! Claim C9. -/

/-- An admin session transcript: `/start`, the name, then six answers; the
sixth answer arrives after the interview has completed. -/
def traceC9 : List Event :=
  [Event.startCmd none 0,
   Event.textMsg (strL "Al") 1 qsW,
   Event.textMsg (strL "x") 2 qsW,
   Event.textMsg (strL "x") 3 qsW,
   Event.textMsg (strL "x") 4 qsW,
   Event.textMsg (strL "x") 5 qsW,
   Event.textMsg (strL "x") 6 qsW,
   Event.textMsg (strL "x") 7 qsW]

/-- The database produced by running the admin transcript. -/
def dbC9 : Db := traceC9.foldl (fun db e => (step true e db).1) db0

/-- Claim C9, counterexample: an admin session reaches a state with six
Response rows, refuting `at most Q (= 5) Response rows after any sequence
of operations` — after completion the admin bypass unlocks the row and a
further answer inserts a sixth Response (question_number 5). -/
theorem C9_counterexample :
    Reachable true dbC9 ∧ dbC9.responses.length = 6 ∧
    ¬(dbC9.responses.length ≤ QUESTIONS_PER_INTERVIEW) := by
  refine ⟨?_, by decide, by decide⟩
  exact Reachable.textMsg _ _ _ rfl
    (Reachable.textMsg _ _ _ rfl
      (Reachable.textMsg _ _ _ rfl
        (Reachable.textMsg _ _ _ rfl
          (Reachable.textMsg _ _ _ rfl
            (Reachable.textMsg _ _ _ rfl
              (Reachable.textMsg _ _ _ rfl
                (Reachable.startCmd none 0 Reachable.init)))))))

/-- Claim C9 (amended): in every reachable state the Response rows have
pairwise distinct question_numbers (at most one row per question number,
enforced by the pre-insert existence check, not by any database
constraint), and for non-admin sessions there are at most
`QUESTIONS_PER_INTERVIEW` rows; the row-count bound fails for admin
sessions, which can continue past completion. -/
theorem C9_response_rows :
    (∀ (admin : Bool) (db : Db), Reachable admin db →
      (db.responses.map (fun x => x.question_number)).Nodup) ∧
    (∀ db : Db, Reachable false db →
      db.responses.length ≤ QUESTIONS_PER_INTERVIEW) := by
  constructor
  · intro admin db h
    exact (reachable_inv admin db h).2.1
  · intro db h
    obtain ⟨_, hn, hr⟩ := reachable_inv false db h
    have hr2 := hr rfl
    have hlen : (db.responses.map (fun x => x.question_number)).length =
        db.responses.length := by simp
    have hsub : (db.responses.map (fun x => x.question_number)).toFinset ⊆
        Finset.Icc (0 : Int) 4 := by
      intro a ha
      rw [List.mem_toFinset, List.mem_map] at ha
      obtain ⟨x, hx, hax⟩ := ha
      obtain ⟨h0, h4⟩ := hr2 x hx
      rw [Finset.mem_Icc]
      omega
    have hcard : (db.responses.map (fun x => x.question_number)).toFinset.card =
        (db.responses.map (fun x => x.question_number)).length :=
      List.toFinset_card_of_nodup hn
    have hle : (db.responses.map (fun x => x.question_number)).toFinset.card ≤
        (Finset.Icc (0 : Int) 4).card := Finset.card_le_card hsub
    have hicc : (Finset.Icc (0 : Int) 4).card = 5 := by
      rw [Int.card_Icc]
      rfl
    show db.responses.length ≤ 5
    omega

/-- A completed two-answer prefix of a non-admin session. -/
def traceTwo : List Event :=
  [Event.startCmd none 0,
   Event.textMsg (strL "Al") 1 qsW,
   Event.textMsg (strL "x") 2 qsW,
   Event.textMsg (strL "x") 3 qsW]

/-- The database produced by running the two-answer transcript. -/
def dbTwo : Db := traceTwo.foldl (fun db e => (step false e db).1) db0

/-- Claim C9, witness: the uniqueness and row-count bounds evaluated on the
concrete two-answer non-admin state. -/
theorem C9_witness :
    ((dbTwo.responses.map (fun x => x.question_number)).Nodup) ∧
    dbTwo.responses.length ≤ QUESTIONS_PER_INTERVIEW := by
  have hr : Reachable false dbTwo :=
    Reachable.textMsg _ _ _ rfl
      (Reachable.textMsg _ _ _ rfl
        (Reachable.textMsg _ _ _ rfl
          (Reachable.startCmd none 0 Reachable.init)))
  exact ⟨C9_response_rows.1 false dbTwo hr, C9_response_rows.2 dbTwo hr⟩


/-! Claim C10. -/

/-- Claim C10: for an admin whose candidate row is locked
(has_completed_interview = 1), any plain text message first clears both
has_completed_interview and completed to 0 and then routes exactly as if
the stored row had never been locked — handling the message on the locked
database equals handling it on the unlocked one — and the same unlock is
repeated inside the name-input handler (on any valid name) and inside the
answer handler (on any non-duplicate answer): each of those handlers is
also insensitive to whether the lock was already cleared. -/
theorem C10_admin_unlock (db : Db) (r : Candidate) (text : Str)
    (now lt : ℚ) (sample : List Str) (index : Int)
    (hc : db.candidate = some r) (hl : r.has_completed_interview = 1) :
    ((clearLock db).candidate = some { r with
        has_completed_interview := 0, completed := 0 }) ∧
    (handle_message true text now sample db =
      handle_message true text now sample (clearLock db)) ∧
    (2 ≤ (stripWs text).length → (stripWs text).length ≤ 20 →
      containsSub (stripWs text) (strL ".") = false →
      containsSub (stripWs text) [Char.ofNat 10] = false →
      handle_name_input true text now sample db =
        handle_name_input true text now sample (clearLock db)) ∧
    (∀ qs, r.selected_questions = some qs → qs ≠ [] →
      (db.responses.any fun x => x.question_number == index - 1) = false →
      handle_answer true text index now lt db =
        handle_answer true text index now lt (clearLock db)) := by
  obtain ⟨c, rs⟩ := db
  simp only at hc
  subst hc
  refine ⟨rfl, ?_, ?_, ?_⟩
  · unfold handle_message clearLock
    dsimp only
    rw [if_neg (show ¬(r.has_completed_interview = 1 ∧ true = false) from by
      rintro ⟨_, hb⟩; exact absurd hb (by decide))]
    rw [if_pos (show (r.has_completed_interview = 1 ∧ true = true) from
      ⟨hl, rfl⟩)]
    rw [if_neg (show ¬((0 : Int) = 1 ∧ true = false) from by
      rintro ⟨h, _⟩; exact absurd h (by decide))]
    rw [if_neg (show ¬((0 : Int) = 1 ∧ true = true) from by
      rintro ⟨h, _⟩; exact absurd h (by decide))]
  · intro h1 h2 h3 h4
    unfold handle_name_input clearLock
    dsimp only
    simp only [hl]
    simp only [if_neg (show ¬((stripWs text).length < 2) from by omega)]
    simp only [if_neg (show ¬((stripWs text).length > 20) from by omega)]
    simp only [if_neg (show ¬(containsSub (stripWs text) (strL ".") ∨
      containsSub (stripWs text) [Char.ofNat 10]) from by
        rintro (h | h)
        · rw [h3] at h; exact absurd h (by decide)
        · rw [h4] at h; exact absurd h (by decide))]
    simp only [show (((1 : Int) == 1) = true ∧ true = false) = False from by
      simp]
    simp only [show (((0 : Int) == 1) = true ∧ true = false) = False from by
      simp]
    simp only [show (((1 : Int) == 1) = true ∧ True) = True from by simp,
      if_false, if_true, ite_self]
  · intro qs hsel hqe hdup
    simp only at hdup
    unfold handle_answer get_user_questions clearLock
    dsimp only
    rw [hsel]
    simp only [if_neg hqe]
    simp only [if_neg (show
      ¬((rs.any fun x => x.question_number == index - 1) = true) from by
        simp [hdup])]
    simp only [hl]
    simp only [show (True ∧ true = false) = False from by simp,
      show (True ∧ True) = True from by simp,
      show (((0 : Int) = 1) ∧ true = false) = False from by simp,
      show (((0 : Int) = 1) ∧ True) = False from by simp,
      if_false, if_true, ite_self]

/-- Claim C10, witness: the unlock and the handler equalities evaluated on
the concrete locked database, for the admin text `Al` arriving with cursor
argument 7. -/
theorem C10_witness :
    ((clearLock dbLocked).candidate = some { rowLocked with
        has_completed_interview := 0, completed := 0 }) ∧
    (handle_message true (strL "Al") 9 qsW dbLocked =
      handle_message true (strL "Al") 9 qsW (clearLock dbLocked)) ∧
    (handle_name_input true (strL "Al") 9 qsW dbLocked =
      handle_name_input true (strL "Al") 9 qsW (clearLock dbLocked)) ∧
    (handle_answer true (strL "Al") 7 9 0 dbLocked =
      handle_answer true (strL "Al") 7 9 0 (clearLock dbLocked)) := by
  have h := C10_admin_unlock dbLocked rowLocked (strL "Al") 9 0 qsW 7 rfl rfl
  exact ⟨h.1, h.2.1,
    h.2.2.1 (by decide) (by decide) (by decide) (by decide),
    h.2.2.2 qsW rfl (by decide) (by decide)⟩

end InterviewBot
